import Mathlib

/-!
Shallow embedding of the Transfer/Contract Lifecycle Engine with Change Data
Capture of the rinbp25-transfermarkt repository.

Sources embedded here:
- src/src/services/contractService.js (the complete second ContractService
  class, lines 487-956): createContract, terminateContract, renewContract,
  validateContract, calculateClubSalaryExpenses, updatePlayerValueOnRenewal,
  processExpiredContracts.
- src/unnamed/part_006 (two drafts of services/transferService.js):
  initiateTransfer, completeTransfer, validateTransfer, validateTransferWindow,
  validateClubBudgets, validateContractStatus, validateSquadRegistration,
  updatePlayerValue (second draft, the one that persists the new value),
  calculateTransferBudgetImpact.
- src/unnamed/part_001 (utils/cdc.js): the CDC class, logChange, handleChange,
  triggerChange, with its bounded in-memory change log.
- src/src/models/Transfer.js, src/src/models/Contract.js,
  src/unnamed/part_004 (Club model), src/unnamed/part_005 (Player model):
  field shapes and schema defaults.
- src/unnamed/part_007 (utils/errorResponse.js): ErrorResponse.

Modelling conventions: monetary amounts and market values are rationals
(JavaScript numbers), dates are integers in milliseconds since the epoch,
Mongo ObjectIds are naturals, and the ambient clock (new Date()) is passed
explicitly as a parameter. A Mongo session transaction is a function from the
database to a result paired with the database; commitTransaction keeps the
final database and abortTransaction restores the initial one, which is the
withTransaction wrapper below. Helper methods whose bodies are absent from
the provided sources (only their call sites survive) are modelled from the
specification text and carry a doc comment starting with
`Modelled from the spec:`.
-/

namespace Transfermarkt

/-- ErrorResponse from utils/errorResponse.js: a message plus an HTTP status
code. NotFound errors use 404 and validation or invariant errors use 400
throughout the services. -/
structure ErrorResponse where
  message : String
  statusCode : Nat
deriving DecidableEq, Repr

/-- Values stored in a Mongoose Map field such as Contract.clauses or
Transfer.additionalTerms (Mixed values; the services store strings, dates and
numbers). -/
inductive ClauseVal where
  | str : String → ClauseVal
  | date : Int → ClauseVal
  | num : ℚ → ClauseVal
deriving DecidableEq, Repr

/-- JavaScript Map.set on an association list: replaces the value of an
existing key in place, otherwise appends the binding, preserving insertion
order. -/
def mapSet : List (String × ClauseVal) → String → ClauseVal → List (String × ClauseVal)
  | [], k, v => [(k, v)]
  | kv :: rest, k, v =>
    if kv.1 == k then (k, v) :: rest else kv :: mapSet rest k v

/-- JavaScript Map.get on an association list. -/
def mapGet (m : List (String × ClauseVal)) (k : String) : Option ClauseVal :=
  (m.find? (fun kv => kv.1 == k)).map Prod.snd

/-- JavaScript Math.round: round half toward positive infinity. -/
def jsRound (q : ℚ) : ℤ :=
  Int.floor (q + 1 / 2)

/-- Thirty days in milliseconds, the minimum contract duration used by
validateContract. -/
def minContractDurationMs : Int := 30 * 24 * 60 * 60 * 1000

/-- Five years (of 365 days) in milliseconds, the maximum contract duration
used by validateContract. -/
def maxContractDurationMs : Int := 5 * 365 * 24 * 60 * 60 * 1000

/-- One year (of 365 days) in milliseconds, used by
updatePlayerValueOnRenewal to convert a contract duration to years. -/
def oneYearMs : Int := 365 * 24 * 60 * 60 * 1000

/-- Dates as the services observe them: the millisecond epoch value (used for
ordering and durations) and the zero-based month (Date.prototype.getMonth,
used by validateTransferWindow). -/
structure JsDate where
  ms : Int
  month : Nat
deriving DecidableEq, Repr

/-- Contract status enum from models/Contract.js. -/
inductive ContractStatus where
  | Active
  | Expired
  | Terminated
deriving DecidableEq, Repr

/-- Transfer status enum from models/Transfer.js. -/
inductive TransferStatus where
  | Pending
  | Completed
  | Cancelled
  | Failed
deriving DecidableEq, Repr

/-- Player record (src/unnamed/part_005): the fields the engine reads and
writes. The age virtual is modelled as a stored integer since the services
only compare it against constant thresholds. -/
structure Player where
  id : Nat
  age : ℤ
  position : String
  currentClub : Option Nat
  marketValue : ℚ
deriving DecidableEq, Repr

/-- Club record (src/unnamed/part_004). -/
structure Club where
  id : Nat
  budget : ℚ
  currentSquad : List Nat
deriving DecidableEq, Repr

/-- Contract record (src/src/models/Contract.js). -/
structure Contract where
  id : Nat
  playerId : Nat
  clubId : Nat
  startDate : Int
  endDate : Int
  salary : ℚ
  clauses : List (String × ClauseVal)
  status : ContractStatus
deriving DecidableEq, Repr

/-- Sell-on clause subdocument of a transfer (models/Transfer.js). -/
structure SellOnClause where
  percentage : ℚ := 0
  active : Bool := false
deriving DecidableEq, Repr

/-- Transfer record (src/src/models/Transfer.js), restricted to the fields
the engine reads and writes. -/
structure Transfer where
  id : Nat
  playerId : Nat
  fromClub : Nat
  toClub : Nat
  transferFee : ℚ
  date : JsDate
  transferType : String
  transferWindow : String
  sellOnClause : SellOnClause
  status : TransferStatus
  contractDetails : Option Nat
  additionalTerms : List (String × ClauseVal)
deriving DecidableEq, Repr

/-- Database state: the four collections the engine touches, plus a counter
supplying fresh ObjectIds for newly constructed documents. -/
structure DB where
  players : List Player
  clubs : List Club
  contracts : List Contract
  transfers : List Transfer
  nextId : Nat
deriving DecidableEq, Repr

/-- Sequencing of session-scoped operations: a thrown error short-circuits,
carrying the partially mutated session state along (the enclosing
transaction decides whether it survives). -/
def bindE {α β : Type} (r : Except ErrorResponse α × DB)
    (f : α → DB → Except ErrorResponse β × DB) : Except ErrorResponse β × DB :=
  match r with
  | (Except.error e, db) => (Except.error e, db)
  | (Except.ok a, db) => f a db

/-- Transaction wrapper: startTransaction / commitTransaction on success,
abortTransaction on error (the catch blocks of the services). On an error the
initial database is restored, so no partial write survives. -/
def withTransaction {α : Type} (body : DB → Except ErrorResponse α × DB)
    (db : DB) : Except ErrorResponse α × DB :=
  match body db with
  | (Except.ok a, db2) => (Except.ok a, db2)
  | (Except.error e, _) => (Except.error e, db)

/-- Model.findById for players. -/
def findPlayer (pid : Nat) (db : DB) : Option Player :=
  db.players.find? (fun p => p.id == pid)

/-- Model.findById for clubs. -/
def findClub (cid : Nat) (db : DB) : Option Club :=
  db.clubs.find? (fun c => c.id == cid)

/-- Model.findById for contracts. -/
def findContract (cid : Nat) (db : DB) : Option Contract :=
  db.contracts.find? (fun c => c.id == cid)

/-- Model.findById for transfers. -/
def findTransfer (tid : Nat) (db : DB) : Option Transfer :=
  db.transfers.find? (fun t => t.id == tid)

/-- Save of a modified player document: rewrite the stored record with the
given id. -/
def updatePlayerIn (pid : Nat) (f : Player → Player) (db : DB) : DB :=
  { db with players := db.players.map (fun p => if p.id == pid then f p else p) }

/-- Save of a modified club document. -/
def updateClubIn (cid : Nat) (f : Club → Club) (db : DB) : DB :=
  { db with clubs := db.clubs.map (fun c => if c.id == cid then f c else c) }

/-- Save of a modified contract document. -/
def updateContractIn (cid : Nat) (f : Contract → Contract) (db : DB) : DB :=
  { db with contracts := db.contracts.map (fun c => if c.id == cid then f c else c) }

/-- Save of a modified transfer document. -/
def updateTransferIn (tid : Nat) (f : Transfer → Transfer) (db : DB) : DB :=
  { db with transfers := db.transfers.map (fun t => if t.id == tid then f t else t) }

/-- Budget of the club with the given id, if present. -/
def budgetOf (cid : Nat) (db : DB) : Option ℚ :=
  (findClub cid db).map Club.budget

/-- Market value of the player with the given id, if present. -/
def marketValueOf (pid : Nat) (db : DB) : Option ℚ :=
  (findPlayer pid db).map Player.marketValue

/-! ## Change Data Capture (src/unnamed/part_001, utils/cdc.js) -/

/-- Change event as delivered by the underlying change feed: operation type,
the identity of the affected document (documentKey) and the source timestamp
carried by the feed. -/
structure FeedChange where
  operationType : String
  documentKey : Nat
  sourceTimestamp : Int
deriving DecidableEq, Repr

/-- Change record after handleChange stamped it: the feed fields spread
together with the capture timestamp (cdcTimestamp) and the source model name
(cdcModelName). -/
structure ChangeRecord where
  operationType : String
  documentKey : Nat
  sourceTimestamp : Int
  cdcTimestamp : Int
  cdcModelName : String
deriving DecidableEq, Repr

/-- Capacity of the in-memory change log (maxChangeLogSize in the CDC
constructor). -/
def maxChangeLogSize : Nat := 1000

/-- CDC.logChange: push the change, then shift away the oldest entry if the
log has grown beyond maxChangeLogSize. -/
def logChange (log : List ChangeRecord) (c : ChangeRecord) : List ChangeRecord :=
  let pushed := log ++ [c]
  if maxChangeLogSize < pushed.length then pushed.drop 1 else pushed

/-- Observable CDC state: the bounded change log plus the stream of events
emitted so far, each tagged with its channel name. -/
structure CDCState where
  changeLog : List ChangeRecord
  published : List (String × ChangeRecord)
deriving DecidableEq, Repr

/-- Initial CDC state (empty log, nothing published). -/
def cdcInit : CDCState := { changeLog := [], published := [] }

/-- Stamping step at the top of CDC.handleChange: spread the incoming change
and attach the capture timestamp and model name. -/
def stampChange (now : Int) (modelName : String) (ch : FeedChange) : ChangeRecord :=
  { operationType := ch.operationType
    documentKey := ch.documentKey
    sourceTimestamp := ch.sourceTimestamp
    cdcTimestamp := now
    cdcModelName := modelName }

/-- CDC.handleChange: stamp the change, log it, emit it on the per-model
channel and the global channel, and additionally on the operation-type
channel for insert, update, delete and replace operations. No deduplication
of redelivered changes is performed. -/
def handleChange (now : Int) (modelName : String) (ch : FeedChange)
    (st : CDCState) : CDCState :=
  let cw := stampChange now modelName ch
  let st1 : CDCState :=
    { changeLog := logChange st.changeLog cw
      published := st.published ++ [("change:" ++ modelName, cw), ("change", cw)] }
  if ch.operationType == "insert" || ch.operationType == "update" ||
      ch.operationType == "delete" || ch.operationType == "replace" then
    { st1 with published := st1.published ++ [(ch.operationType ++ ":" ++ modelName, cw)] }
  else
    st1

/-- CDC.resolveConflict: of two captured changes the one with the later
capture timestamp wins. -/
def resolveConflict (c1 c2 : ChangeRecord) : ChangeRecord :=
  if c2.cdcTimestamp < c1.cdcTimestamp then c1 else c2

/-- CDC.getAllChanges: the most recent limit entries of the log. -/
def getAllChanges (st : CDCState) (limit : Nat) : List ChangeRecord :=
  st.changeLog.drop (st.changeLog.length - limit)

/-! ## ContractService (src/src/services/contractService.js, second class,
lines 487-956) -/

/-- Input of createContract. Fields are optional because validateContract
checks their presence; clauses default to the empty map as in the Contract
schema. -/
structure ContractData where
  playerId : Option Nat
  clubId : Option Nat
  startDate : Option Int
  endDate : Option Int
  salary : Option ℚ
  clauses : List (String × ClauseVal) := []
deriving DecidableEq, Repr

/-- ContractService.calculateClubSalaryExpenses: sum of the salaries of the
Active contracts of the club (lines 762-773). -/
def calculateClubSalaryExpenses (clubId : Nat) (db : DB) : ℚ :=
  ((db.contracts.filter
      (fun c => c.clubId == clubId && c.status == ContractStatus.Active)).map
    Contract.salary).sum

/-- ContractService.validateContract (lines 804-864), in source order:
missing required fields (400), missing player (404), missing club (404),
end date not after start date (400), duration under 30 days (400), duration
over 5 years (400), an existing Active contract of the player with a club
other than the requested one (400), and the salary check against the club
budget (400). On success the destructured fields are returned for the
caller. -/
def validateContract (data : ContractData) (db : DB) :
    Except ErrorResponse (Nat × Nat × Int × Int × ℚ) × DB :=
  match data.playerId, data.clubId, data.startDate, data.endDate, data.salary with
  | some playerId, some clubId, some startDate, some endDate, some salary =>
    match findPlayer playerId db with
    | none =>
      (Except.error ⟨"Player not found with id " ++ toString playerId, 404⟩, db)
    | some _ =>
      match findClub clubId db with
      | none =>
        (Except.error ⟨"Club not found with id " ++ toString clubId, 404⟩, db)
      | some club =>
        if endDate ≤ startDate then
          (Except.error ⟨"Contract end date must be after start date", 400⟩, db)
        else if endDate - startDate < minContractDurationMs then
          (Except.error ⟨"Contract duration must be at least 30 days", 400⟩, db)
        else if maxContractDurationMs < endDate - startDate then
          (Except.error ⟨"Contract duration cannot exceed 5 years", 400⟩, db)
        else
          match db.contracts.find?
              (fun c => c.playerId == playerId &&
                c.status == ContractStatus.Active && c.clubId != clubId) with
          | some _ =>
            (Except.error
              ⟨"Player already has an active contract with another club", 400⟩, db)
          | none =>
            if club.budget < calculateClubSalaryExpenses clubId db + salary then
              (Except.error ⟨"Contract salary exceeds club budget", 400⟩, db)
            else
              (Except.ok (playerId, clubId, startDate, endDate, salary), db)
  | _, _, _, _, _ =>
    (Except.error ⟨"Missing required contract fields", 400⟩, db)

/-- Post-save steps of ContractService.createContract: point the player at
the club if the player document exists, and add the player to the club squad
unless already present, if the club document exists. -/
def attachPlayerAndSquad (playerId clubId : Nat) (db : DB) : DB :=
  let db3 :=
    match findPlayer playerId db with
    | some _ =>
      updatePlayerIn playerId (fun p => { p with currentClub := some clubId }) db
    | none => db
  match findClub clubId db3 with
  | some club =>
    if club.currentSquad.any (fun i => i == playerId) then db3
    else
      updateClubIn clubId
        (fun cl => { cl with currentSquad := cl.currentSquad ++ [playerId] }) db3
  | none => db3

/-- Session-scoped body of ContractService.createContract (lines 509-576):
validate, save the new Active contract, point the player at the club, and
add the player to the club squad unless already present. -/
def createContractIn (data : ContractData) (db : DB) :
    Except ErrorResponse Contract × DB :=
  bindE (validateContract data db) (fun fields db1 =>
    match fields with
    | (playerId, clubId, startDate, endDate, salary) =>
      let contract : Contract :=
        { id := db1.nextId
          playerId := playerId
          clubId := clubId
          startDate := startDate
          endDate := endDate
          salary := salary
          clauses := data.clauses
          status := ContractStatus.Active }
      let db2 : DB :=
        { db1 with contracts := db1.contracts ++ [contract], nextId := db1.nextId + 1 }
      (Except.ok contract, attachPlayerAndSquad playerId clubId db2))

/-- ContractService.createContract called without a caller-supplied session:
the service opens, commits or aborts its own transaction. -/
def createContract (data : ContractData) (db : DB) :
    Except ErrorResponse Contract × DB :=
  withTransaction (createContractIn data) db

/-- Termination input of terminateContract. -/
structure TerminationData where
  reason : Option String := none
  compensationFee : Option ℚ := none
deriving DecidableEq, Repr

/-- Reason recorded by terminateContract: the caller-supplied reason if
truthy, otherwise the default "Transfer" (line 613). -/
def terminationReasonOf (td : TerminationData) : String :=
  match td.reason with
  | some r => if r == "" then "Transfer" else r
  | none => "Transfer"

/-- Mutation applied to the contract document by terminateContract: status
Terminated, and the termination reason, date and optional truthy fee
recorded in the clauses map. -/
def terminateChange (now : Int) (td : TerminationData) (c : Contract) : Contract :=
  let cl1 := mapSet c.clauses "terminationReason"
    (ClauseVal.str (terminationReasonOf td))
  let cl2 := mapSet cl1 "terminationDate" (ClauseVal.date now)
  let cl3 :=
    match td.compensationFee with
    | some fee => if fee == 0 then cl2 else mapSet cl2 "terminationFee" (ClauseVal.num fee)
    | none => cl2
  { c with status := ContractStatus.Terminated, clauses := cl3 }

/-- Session-scoped body of ContractService.terminateContract (lines 585-643):
404 if absent, 400 unless Active, then set status Terminated and record the
termination reason, date and optional fee in the clauses map. -/
def terminateContractIn (now : Int) (contractId : Nat) (td : TerminationData)
    (db : DB) : Except ErrorResponse Nat × DB :=
  match findContract contractId db with
  | none =>
    (Except.error ⟨"Contract not found with id " ++ toString contractId, 404⟩, db)
  | some contract =>
    if contract.status != ContractStatus.Active then
      (Except.error ⟨"Cannot terminate contract with status", 400⟩, db)
    else
      (Except.ok contractId, updateContractIn contractId (terminateChange now td) db)

/-- ContractService.terminateContract with its own transaction. -/
def terminateContract (now : Int) (contractId : Nat) (td : TerminationData)
    (db : DB) : Except ErrorResponse Nat × DB :=
  withTransaction (terminateContractIn now contractId td) db

/-- New terms supplied to renewContract and to the contract creation step of
completeTransfer: the end date and the salary (the test suite passes exactly
these two fields). -/
structure ContractTerms where
  endDate : Int
  salary : ℚ
deriving DecidableEq, Repr

/-- ContractService.updatePlayerValueOnRenewal (lines 873-912): value grows
by 5 percent plus 2 percent per contract year, an extra tenth for players
under 25, a tenth less for players over 30; the result is rounded. -/
def updatePlayerValueOnRenewal (playerId : Nat) (newContract : Contract)
    (db : DB) : Except ErrorResponse Nat × DB :=
  match findPlayer playerId db with
  | none =>
    (Except.error ⟨"Player not found with id " ++ toString playerId, 404⟩, db)
  | some player =>
    let durationYears : ℚ :=
      ((newContract.endDate - newContract.startDate : Int) : ℚ) / ((oneYearMs : Int) : ℚ)
    let base : ℚ := 1 + (5 / 100 + durationYears * (2 / 100))
    let factor : ℚ :=
      if player.age < 25 then base + 1 / 10
      else if 30 < player.age then base - 1 / 10
      else base
    let newMarketValue : ℚ := ((jsRound (player.marketValue * factor) : ℤ) : ℚ)
    (Except.ok playerId,
      updatePlayerIn playerId (fun p => { p with marketValue := newMarketValue }) db)

/-- Session-scoped body of ContractService.renewContract (lines 651-695):
find the Active contract, terminate it with reason "Renewal", create the new
contract carrying over player and club with the new terms and a start date of
now, then revalue the player. -/
def renewContractIn (now : Int) (contractId : Nat) (renewalData : ContractTerms)
    (db : DB) : Except ErrorResponse Contract × DB :=
  match findContract contractId db with
  | none =>
    (Except.error ⟨"Contract not found with id " ++ toString contractId, 404⟩, db)
  | some oldContract =>
    if oldContract.status != ContractStatus.Active then
      (Except.error ⟨"Cannot renew contract with status", 400⟩, db)
    else
      bindE (terminateContractIn now contractId { reason := some "Renewal" } db)
        (fun _ db1 =>
          bindE (createContractIn
              { playerId := some oldContract.playerId
                clubId := some oldContract.clubId
                startDate := some now
                endDate := some renewalData.endDate
                salary := some renewalData.salary } db1)
            (fun newContract db2 =>
              bindE (updatePlayerValueOnRenewal oldContract.playerId newContract db2)
                (fun _ db3 => (Except.ok newContract, db3))))

/-- ContractService.renewContract: one transaction around termination,
creation and revaluation; any failure aborts the whole renewal. -/
def renewContract (now : Int) (contractId : Nat) (renewalData : ContractTerms)
    (db : DB) : Except ErrorResponse Contract × DB :=
  withTransaction (renewContractIn now contractId renewalData) db

/-- Predicate of the expiry sweep query: Active contracts whose end date is
strictly before today. -/
def isExpiredActive (today : Int) (c : Contract) : Bool :=
  c.status == ContractStatus.Active && decide (c.endDate < today)

/-- Per-contract update of the expiry sweep: mark a due contract Expired,
leave every other contract alone. -/
def expireOne (today : Int) (c : Contract) : Contract :=
  if isExpiredActive today c then { c with status := ContractStatus.Expired } else c

/-- ContractService.processExpiredContracts (lines 918-952): find the Active
contracts with endDate before today, set each to Expired, and return the
count of contracts updated. The iteration over the query result is collapsed
to a filter for the count and a pointwise map for the saves. -/
def processExpiredContracts (today : Int) (db : DB) :
    Except ErrorResponse Nat × DB :=
  let expired := db.contracts.filter (isExpiredActive today)
  (Except.ok expired.length,
    { db with contracts := db.contracts.map (expireOne today) })

/-! ## TransferService (src/unnamed/part_006, two drafts of
services/transferService.js) -/

/-- Input of initiateTransfer. Schema defaults of models/Transfer.js that the
engine never overrides (transferType, sellOnClause) are resolved into the
field defaults; status is kept optional to model a caller-supplied status
field against the schema default. -/
structure TransferData where
  playerId : Nat
  fromClub : Nat
  toClub : Nat
  transferFee : ℚ
  date : JsDate
  transferType : String := "Permanent"
  transferWindow : String := ""
  sellOnClause : SellOnClause := {}
  status : Option TransferStatus := none
deriving DecidableEq, Repr

/-- Construction of a Transfer document: the given fields plus the schema
default for status (models/Transfer.js lines 54-58: default Completed when no
status field is supplied). -/
def schemaNewTransfer (id : Nat) (d : TransferData)
    (statusField : Option TransferStatus) : Transfer :=
  { id := id
    playerId := d.playerId
    fromClub := d.fromClub
    toClub := d.toClub
    transferFee := d.transferFee
    date := d.date
    transferType := d.transferType
    transferWindow := d.transferWindow
    sellOnClause := d.sellOnClause
    status := statusField.getD TransferStatus.Completed
    contractDetails := none
    additionalTerms := [] }

/-- Construction of a Transfer document outside the engine (the plain CRUD
route POST /api/transfers calls Transfer.create on the request body): the
schema default applies whenever the body carries no status field. -/
def schemaCreateTransfer (id : Nat) (d : TransferData) : Transfer :=
  schemaNewTransfer id d d.status

/-- TransferService.validateTransferWindow: months June to August (5-7) are
the Summer window, January (0) the Winter window; every other month is
outside any window. -/
def validateTransferWindow (date : JsDate) : Bool :=
  (5 ≤ date.month && date.month ≤ 7) || date.month == 0

/-- TransferService.validateClubBudgets: the buying club must exist (404) and
its budget must cover the fee (400). -/
def validateClubBudgets (fromClubId toClubId : Nat) (transferFee : ℚ)
    (db : DB) : Except ErrorResponse Unit × DB :=
  match findClub toClubId db with
  | none =>
    (Except.error ⟨"Buying club not found with ID " ++ toString toClubId, 404⟩, db)
  | some toClub =>
    if toClub.budget < transferFee then
      (Except.error
        ⟨"Buying club does not have sufficient budget for this transfer", 400⟩, db)
    else
      (Except.ok (), db)

/-- TransferService.validateContractStatus: the player must hold an Active
contract (400 otherwise). -/
def validateContractStatus (playerId : Nat) (db : DB) :
    Except ErrorResponse Unit × DB :=
  match db.contracts.find?
      (fun c => c.playerId == playerId && c.status == ContractStatus.Active) with
  | none => (Except.error ⟨"Player does not have an active contract", 400⟩, db)
  | some _ => (Except.ok (), db)

/-- TransferService.validateSquadRegistration: the club must exist (404) and
its squad must be below the cap of 25 (400). -/
def validateSquadRegistration (clubId : Nat) (db : DB) :
    Except ErrorResponse Unit × DB :=
  match findClub clubId db with
  | none =>
    (Except.error ⟨"Club not found with ID " ++ toString clubId, 404⟩, db)
  | some club =>
    if 25 ≤ club.currentSquad.length then
      (Except.error ⟨"Club has reached maximum squad size", 400⟩, db)
    else
      (Except.ok (), db)

/-- TransferService.validateTransfer (part_006 lines 1099-1123), in source
order: player existence (404), transfer window (400), buying club budget,
active contract of the player, squad registration of the buying club. -/
def validateTransfer (data : TransferData) (db : DB) :
    Except ErrorResponse Unit × DB :=
  match findPlayer data.playerId db with
  | none =>
    (Except.error ⟨"Player not found with ID " ++ toString data.playerId, 404⟩, db)
  | some _ =>
    if !validateTransferWindow data.date then
      (Except.error ⟨"Transfer date is outside valid transfer windows", 400⟩, db)
    else
      bindE (validateClubBudgets data.fromClub data.toClub data.transferFee db)
        (fun _ db1 =>
          bindE (validateContractStatus data.playerId db1) (fun _ db2 =>
            validateSquadRegistration data.toClub db2))

/-- Sell-on deduction of calculateTransferBudgetImpact (part_006 lines
630-637): an active clause with a positive percentage deducts that share of
the fee from the selling-club credit. -/
def sellOnDeduction (transferFee : ℚ) (clause : SellOnClause) : ℚ :=
  if clause.active && decide (0 < clause.percentage) then
    transferFee * (clause.percentage / 100)
  else
    0

/-- TransferService.calculateTransferBudgetImpact (part_006 lines 596-643,
first draft): per-type fee impacts for both clubs, with the sell-on deduction
applied to the selling-club impact. The pair is (fromClubImpact,
toClubImpact). -/
def calculateTransferBudgetImpact (transferType : String) (transferFee : ℚ)
    (clause : SellOnClause) : ℚ × ℚ :=
  let base : ℚ × ℚ :=
    match transferType with
    | "Permanent" => (transferFee, -transferFee)
    | "Loan" => (transferFee, -transferFee)
    | "Free Transfer" => (0, 0)
    | "Swap" => (transferFee, -transferFee)
    | _ => (transferFee, -transferFee)
  (base.1 - sellOnDeduction transferFee clause, base.2)

/-- Modelled from the spec: the bodies of reserveFunds (first draft) and
reserveClubBudgets (second draft) are missing from the provided sources, only
their call sites in initiateTransfer survive. Section 4.2 says reserve fails
with InsufficientFunds when the amount exceeds the club budget and otherwise
debits the amount, and section 4.4 says initiate reserves the fee against the
destination club budget. -/
def reserveFunds (toClubId : Nat) (transferFee : ℚ) (db : DB) :
    Except ErrorResponse Unit × DB :=
  match findClub toClubId db with
  | none =>
    (Except.error ⟨"Club not found with ID " ++ toString toClubId, 404⟩, db)
  | some club =>
    if club.budget < transferFee then
      (Except.error ⟨"Insufficient funds to reserve transfer fee", 400⟩, db)
    else
      (Except.ok (),
        updateClubIn toClubId (fun c => { c with budget := c.budget - transferFee }) db)

/-- Session-scoped body of TransferService.initiateTransfer (part_006 lines
230-269 and 685-729): validate, compute the budget impact (whose result the
source does not use), save the transfer with an explicit Pending status that
overrides any status carried by the input, and reserve the fee against the
destination club. -/
def initiateTransferIn (data : TransferData) (db : DB) :
    Except ErrorResponse Nat × DB :=
  bindE (validateTransfer data db) (fun _ db1 =>
    let _budgetImpact :=
      calculateTransferBudgetImpact data.transferType data.transferFee data.sellOnClause
    let transfer := schemaNewTransfer db1.nextId data (some TransferStatus.Pending)
    let db2 : DB :=
      { db1 with transfers := db1.transfers ++ [transfer], nextId := db1.nextId + 1 }
    bindE (reserveFunds data.toClub data.transferFee db2)
      (fun _ db3 => (Except.ok transfer.id, db3)))

/-- TransferService.initiateTransfer with its own transaction. -/
def initiateTransfer (data : TransferData) (db : DB) :
    Except ErrorResponse Nat × DB :=
  withTransaction (initiateTransferIn data) db

/-- Modelled from the spec: the body of terminateOldContract is missing from
the provided sources. Section 4.4 says complete terminates any existing
Active contract between the player and the origin club with reason transfer,
which is exactly terminateContractIn with the default reason "Transfer". -/
def terminateOldContract (now : Int) (contractId : Nat) (db : DB) :
    Except ErrorResponse Nat × DB :=
  terminateContractIn now contractId {} db

/-- Modelled from the spec: the body of createNewContract is missing from the
provided sources. Section 4.4 says complete creates a new contract with the
destination club when contract data is supplied, and section 4.3 describes
contract creation with its validations, which is createContractIn applied to
the player, the destination club, a start date of now and the supplied
terms. -/
def createNewContract (now : Int) (playerId clubId : Nat)
    (terms : ContractTerms) (db : DB) : Except ErrorResponse Contract × DB :=
  createContractIn
    { playerId := some playerId
      clubId := some clubId
      startDate := some now
      endDate := some terms.endDate
      salary := some terms.salary } db

/-- TransferService.updatePlayerValue (part_006 lines 959-989, second draft,
the draft that persists the value it computes): the new market value is the
rounded 90 percent of the transfer fee, saved on the player. The first draft
(lines 564-589) additionally computed an age multiplier of 1.2 under 23 and
0.8 over 30, but returned the freshly fetched document without saving it, so
that value never reached the store. -/
def updatePlayerValue (playerId : Nat) (transferFee : ℚ) (db : DB) :
    Except ErrorResponse Nat × DB :=
  match findPlayer playerId db with
  | none =>
    (Except.error ⟨"Player not found with ID " ++ toString playerId, 404⟩, db)
  | some _ =>
    let newMarketValue : ℚ := ((jsRound (transferFee * (9 / 10)) : ℤ) : ℚ)
    (Except.ok playerId,
      updatePlayerIn playerId (fun p => { p with marketValue := newMarketValue }) db)

/-- Modelled from the spec: the body of updateClubBudgets is missing from the
provided sources, only its call sites in completeTransfer survive. Sections
4.2 and 4.4 say settlement credits the fee to the origin club minus any
active sell-on clause percentage, and finalizes the debit already reserved on
the destination club without charging it again, so the destination budget is
left as the reservation put it. The sell-on clause of the transfer is passed
explicitly because the missing source only received the club ids and the
fee. -/
def updateClubBudgets (fromClubId toClubId : Nat) (transferFee : ℚ)
    (clause : SellOnClause) (db : DB) : Except ErrorResponse Unit × DB :=
  let _finalizedDebit := toClubId
  (Except.ok (),
    updateClubIn fromClubId
      (fun c => { c with budget := c.budget + (transferFee - sellOnDeduction transferFee clause) })
      db)

/-- Session-scoped body of TransferService.completeTransfer (part_006 lines
273-387, first draft, whose optional contractData parameter the second draft
replaced by the contractDetails reference): check the transfer is Pending,
load player and clubs, terminate the old Active contract with the origin
club if one exists, create the new contract if terms were supplied, update
the player club reference and market value, move the player between the two
squads, settle the budgets and mark the transfer Completed. -/
def completeTransferIn (now : Int) (transferId : Nat)
    (contractData : Option ContractTerms) (db : DB) :
    Except ErrorResponse Nat × DB :=
  match findTransfer transferId db with
  | none =>
    (Except.error ⟨"Transfer not found with id " ++ toString transferId, 404⟩, db)
  | some transfer =>
    if transfer.status != TransferStatus.Pending then
      (Except.error ⟨"Cannot complete transfer with status", 400⟩, db)
    else
      match findPlayer transfer.playerId db, findClub transfer.fromClub db,
          findClub transfer.toClub db with
      | some _, some _, some _ =>
        bindE (match db.contracts.find?
            (fun c => c.playerId == transfer.playerId &&
              c.clubId == transfer.fromClub && c.status == ContractStatus.Active) with
          | some oldContract => terminateOldContract now oldContract.id db
          | none => (Except.ok 0, db))
          (fun _ db1 =>
            bindE (match contractData with
              | some terms =>
                bindE (createNewContract now transfer.playerId transfer.toClub terms db1)
                  (fun newContract db2 => (Except.ok (some newContract.id), db2))
              | none => (Except.ok none, db1))
              (fun newContractId db2 =>
                let db3 := updatePlayerIn transfer.playerId
                  (fun p => { p with currentClub := some transfer.toClub }) db2
                bindE (updatePlayerValue transfer.playerId transfer.transferFee db3)
                  (fun _ db4 =>
                    let db5 := updateClubIn transfer.fromClub
                      (fun c => { c with currentSquad :=
                        c.currentSquad.filter (fun i => i != transfer.playerId) }) db4
                    let db6 := updateClubIn transfer.toClub
                      (fun c =>
                        if c.currentSquad.any (fun i => i == transfer.playerId) then c
                        else { c with currentSquad := c.currentSquad ++ [transfer.playerId] }) db5
                    bindE (updateClubBudgets transfer.fromClub transfer.toClub
                        transfer.transferFee transfer.sellOnClause db6)
                      (fun _ db7 =>
                        let db8 := updateTransferIn transferId
                          (fun tr => { tr with
                            status := TransferStatus.Completed
                            contractDetails :=
                              match newContractId with
                              | some i => some i
                              | none => tr.contractDetails }) db7
                        (Except.ok transferId, db8)))))
      | _, _, _ => (Except.error ⟨"Player or clubs not found", 404⟩, db)

/-- TransferService.completeTransfer with its own transaction. -/
def completeTransfer (now : Int) (transferId : Nat)
    (contractData : Option ContractTerms) (db : DB) :
    Except ErrorResponse Nat × DB :=
  withTransaction (completeTransferIn now transferId contractData) db

/-! ## Reachability by committed engine operations and the contract
invariant -/

/-- One committed engine operation: the database component of the result of
one of the five lifecycle operations named by the contract invariant
(createContract, terminateContract, renewContract, completeTransfer and the
expiry sweep processExpiredContracts). A failed operation leaves the
database unchanged through its transaction, so failed calls are covered as
well. -/
inductive EngineStep : DB → DB → Prop where
  | create (data : ContractData) (db : DB) :
      EngineStep db (createContract data db).2
  | terminate (now : Int) (contractId : Nat) (td : TerminationData) (db : DB) :
      EngineStep db (terminateContract now contractId td db).2
  | renew (now : Int) (contractId : Nat) (rd : ContractTerms) (db : DB) :
      EngineStep db (renewContract now contractId rd db).2
  | complete (now : Int) (transferId : Nat) (cd : Option ContractTerms) (db : DB) :
      EngineStep db (completeTransfer now transferId cd db).2
  | sweep (today : Int) (db : DB) :
      EngineStep db (processExpiredContracts today db).2

/-- Reachability: zero or more committed engine operations. -/
inductive EngineReach : DB → DB → Prop where
  | refl (db : DB) : EngineReach db db
  | tail {db1 db2 db3 : DB} :
      EngineReach db1 db2 → EngineStep db2 db3 → EngineReach db1 db3

/-- The per-player single-active-contract property the specification claims
as an invariant: a player never holds two Active contracts. -/
def AtMostOneActive (db : DB) : Prop :=
  ∀ p : Nat,
    ((db.contracts.filter
        (fun c => c.playerId == p && c.status == ContractStatus.Active)).length ≤ 1)

/-- The weaker property the code actually maintains: all Active contracts of
one player name the same club (the validator only rejects an Active contract
with another club). -/
def SameClubContracts (l : List Contract) : Prop :=
  ∀ c1 ∈ l, ∀ c2 ∈ l,
    c1.playerId = c2.playerId →
    c1.status = ContractStatus.Active →
    c2.status = ContractStatus.Active →
    c1.clubId = c2.clubId

/-- SameClubContracts read off a database state. -/
def SameClub (db : DB) : Prop :=
  SameClubContracts db.contracts

/-! ## Concrete fixtures used by witnesses and counterexamples -/

/-- Sample player aged 24 holding club 2. -/
def samplePlayer : Player :=
  { id := 1, age := 24, position := "Striker", currentClub := some 2, marketValue := 5000000 }

/-- Sample player aged 22 (under 23), used where the age multiplier of the
first transfer-service draft would apply. -/
def youngPlayer : Player :=
  { id := 1, age := 22, position := "Striker", currentClub := some 2, marketValue := 5000000 }

/-- Origin club with a budget of 10 million holding player 1. -/
def originClub : Club :=
  { id := 2, budget := 10000000, currentSquad := [1] }

/-- Destination club with a budget of 15 million and an empty squad. -/
def destClub : Club :=
  { id := 3, budget := 15000000, currentSquad := [] }

/-- Active contract of player 1 with club 2. -/
def activeContract : Contract :=
  { id := 4, playerId := 1, clubId := 2, startDate := 0, endDate := 10000000000,
    salary := 100, clauses := [], status := ContractStatus.Active }

/-- State with one player, one club and no contracts, the start state of the
C1 counterexample. -/
def dbNoContracts : DB :=
  { players := [samplePlayer], clubs := [{ id := 2, budget := 1000000, currentSquad := [] }],
    contracts := [], transfers := [], nextId := 10 }

/-- Contract request of player 1 with club 2 over one hundred days. -/
def plainContractData : ContractData :=
  { playerId := some 1, clubId := some 2, startDate := some 0,
    endDate := some 8640000000, salary := some 100 }

/-- State after granting plainContractData once from dbNoContracts. -/
def dbOneActive : DB := (createContract plainContractData dbNoContracts).2

/-- State after granting plainContractData twice from dbNoContracts. -/
def dbTwoActive : DB := (createContract plainContractData dbOneActive).2

/-- Empty database. -/
def dbEmpty : DB :=
  { players := [], clubs := [], contracts := [], transfers := [], nextId := 1 }

/-- Contract request whose end date equals its start date and whose player id
is dangling, the C2 counterexample input. -/
def badDatesData : ContractData :=
  { playerId := some 1, clubId := some 2, startDate := some 5,
    endDate := some 5, salary := some 100 }

/-- State with player, both clubs and an active contract, from which the C3
witness transfer is initiated. -/
def dbPreTransfer : DB :=
  { players := [samplePlayer], clubs := [originClub, destClub],
    contracts := [activeContract], transfers := [], nextId := 10 }

/-- Transfer request of player 1 from club 2 to club 3 for 7 million dated in
July, with an active ten percent sell-on clause. -/
def sellOnTransferData : TransferData :=
  { playerId := 1, fromClub := 2, toClub := 3, transferFee := 7000000,
    date := { ms := 5, month := 6 }, transferWindow := "Summer",
    sellOnClause := { percentage := 10, active := true } }

/-- Transfer request dated in October (month 9), outside both windows. -/
def octoberTransferData : TransferData :=
  { playerId := 1, fromClub := 2, toClub := 3, transferFee := 7000000,
    date := { ms := 5, month := 9 }, transferWindow := "" }

/-- Pending transfer of the young player for 7 million, stored directly in
the C6 counterexample state. -/
def pendingTransfer : Transfer :=
  { id := 5, playerId := 1, fromClub := 2, toClub := 3, transferFee := 7000000,
    date := { ms := 5, month := 6 }, transferType := "Permanent",
    transferWindow := "Summer", sellOnClause := {}, status := TransferStatus.Pending,
    contractDetails := none, additionalTerms := [] }

/-- State holding the young player and the pending 7 million transfer. -/
def dbPendingYoung : DB :=
  { players := [youngPlayer], clubs := [originClub, destClub],
    contracts := [], transfers := [pendingTransfer], nextId := 20 }

/-- Active contract of player 1 that ended before time 100. -/
def overdueContract : Contract :=
  { id := 4, playerId := 1, clubId := 2, startDate := 0, endDate := 50,
    salary := 100, clauses := [], status := ContractStatus.Active }

/-- State with an overdue Active contract, used by the expiry-sweep
witness. -/
def dbExpiring : DB :=
  { players := [], clubs := [], contracts := [overdueContract],
    transfers := [], nextId := 10 }

/-- State from which the renewal witness runs: player 1 on club 2 with an
Active contract. -/
def dbRenewable : DB :=
  { players := [samplePlayer], clubs := [{ id := 2, budget := 1000000, currentSquad := [1] }],
    contracts := [activeContract], transfers := [], nextId := 10 }

/-- Renewal terms of two years (of 365 days) from time zero at salary 200. -/
def sampleRenewalTerms : ContractTerms :=
  { endDate := 63072000000, salary := 200 }

/-- The contract document produced by renewing activeContract from
dbRenewable at time 0 with sampleRenewalTerms. -/
def renewedContractDoc : Contract :=
  { id := 10, playerId := 1, clubId := 2, startDate := 0, endDate := 63072000000,
    salary := 200, clauses := [], status := ContractStatus.Active }

/-- State after the witness renewal. -/
def dbRenewed : DB := (renewContract 0 4 sampleRenewalTerms dbRenewable).2

/-- State after completing the pending transfer of dbPendingYoung. -/
def dbCompleted : DB := (completeTransfer 7 5 none dbPendingYoung).2

/-- State after initiating the sell-on transfer from dbPreTransfer. -/
def dbSellOnInitiated : DB := (initiateTransfer sellOnTransferData dbPreTransfer).2

/-- State after completing that transfer. -/
def dbSellOnCompleted : DB := (completeTransfer 7 10 none dbSellOnInitiated).2

/-- Sample feed change used by the CDC claims. -/
def sampleFeedChange : FeedChange :=
  { operationType := "update", documentKey := 7, sourceTimestamp := 3 }

/-- State reached by sweeping dbExpiring once at time 100. -/
def dbExpiredOnce : DB := (processExpiredContracts 100 dbExpiring).2

/-- Transfer request that carries an explicit Completed status, which the
engine must override with Pending. -/
def statusCarryingData : TransferData :=
  { sellOnTransferData with status := some TransferStatus.Completed }

/-- State after initiating statusCarryingData from dbPreTransfer. -/
def dbInitiated : DB := (initiateTransfer statusCarryingData dbPreTransfer).2

/-- Delivery of a list of timed feed events to the bus, oldest first. -/
def deliverAll (evs : List (Int × String × FeedChange)) (st : CDCState) : CDCState :=
  evs.foldl (fun s e => handleChange e.1 e.2.1 e.2.2 s) st

/-! # Theorems -/

/-! ## Lemmas about the change log -/

theorem handleChange_changeLog (now : Int) (m : String) (ch : FeedChange)
    (st : CDCState) :
    (handleChange now m ch st).changeLog = logChange st.changeLog (stampChange now m ch) := by
  unfold handleChange
  split <;> rfl

theorem logChange_length_le {log : List ChangeRecord} (c : ChangeRecord)
    (h : log.length ≤ maxChangeLogSize) :
    (logChange log c).length ≤ maxChangeLogSize := by
  unfold logChange
  dsimp only
  split
  · simp only [List.length_drop, List.length_append, List.length_cons, List.length_nil]
    omega
  · rename_i hlt
    simp only [List.length_append, List.length_cons, List.length_nil] at *
    omega

theorem logChange_of_room {log : List ChangeRecord} (c : ChangeRecord)
    (h : log.length < maxChangeLogSize) :
    logChange log c = log ++ [c] := by
  unfold logChange
  dsimp only
  rw [if_neg]
  simp only [List.length_append, List.length_cons, List.length_nil]
  omega

theorem deliverAll_changeLog_bounded (evs : List (Int × String × FeedChange)) :
    ∀ st : CDCState, st.changeLog.length ≤ maxChangeLogSize →
      ((deliverAll evs st).changeLog.length ≤ maxChangeLogSize) := by
  induction evs with
  | nil => intro st h; exact h
  | cons e rest ih =>
    intro st h
    have h1 : (handleChange e.1 e.2.1 e.2.2 st).changeLog.length ≤ maxChangeLogSize := by
      rw [handleChange_changeLog]
      exact logChange_length_le _ h
    exact ih _ h1

/-! ## C8 -/

/-- C8: the change log of the Change Capture Bus is a bounded drop-oldest
buffer. After every sequence of deliveries starting from the initial state
the buffer holds at most maxChangeLogSize (1000) entries, and logging a
change into a full buffer evicts exactly the oldest entry while appending
the new one at the tail, preserving the arrival order of the remaining
entries. -/
theorem changeLog_bounded_and_drops_oldest :
    (∀ evs : List (Int × String × FeedChange),
      ((deliverAll evs cdcInit).changeLog.length ≤ maxChangeLogSize)) ∧
    (∀ (log : List ChangeRecord) (c : ChangeRecord),
      log.length = maxChangeLogSize → logChange log c = log.drop 1 ++ [c]) := by
  constructor
  · intro evs
    apply deliverAll_changeLog_bounded
    simp [cdcInit]
  · intro log c h
    unfold logChange
    dsimp only
    rw [if_pos]
    · have hm : maxChangeLogSize = 1000 := rfl
      exact List.drop_append_of_le_length (by omega)
    · simp only [List.length_append, List.length_cons, List.length_nil]
      omega

/-- Witness for C8 at concrete inputs: a full buffer of 1000 stamped changes
drops its head on the next log, and a concrete delivery sequence stays within
the bound. -/
theorem changeLog_bounded_and_drops_oldest_witness :
    logChange (List.replicate 1000 (stampChange 0 "Player" sampleFeedChange))
        (stampChange 1 "Club" sampleFeedChange)
      = (List.replicate 1000 (stampChange 0 "Player" sampleFeedChange)).drop 1
          ++ [stampChange 1 "Club" sampleFeedChange] ∧
    ((deliverAll [(0, "Player", sampleFeedChange), (1, "Club", sampleFeedChange)]
        cdcInit).changeLog.length ≤ maxChangeLogSize) :=
  ⟨changeLog_bounded_and_drops_oldest.2 _ _ (by rw [List.length_replicate]; rfl),
   changeLog_bounded_and_drops_oldest.1 _⟩

/-! ## C9 -/

/-- C9 counterexample: the bus is not idempotent to duplicate feed
deliveries. Delivering the same change twice (same document identity, same
operation, same source timestamp, even the same capture time) leaves the bus
in a different state than delivering it once, because handleChange neither
checks for nor drops duplicates. -/
theorem duplicate_delivery_changes_state :
    handleChange 5 "Player" sampleFeedChange
        (handleChange 5 "Player" sampleFeedChange cdcInit)
      ≠ handleChange 5 "Player" sampleFeedChange cdcInit := by
  decide

/-- C9 amended: delivering the same change twice appends two identical
stamped entries to the change log (when capacity is not exceeded) and hence
never coincides with delivering it once; the duplicate is neither
deduplicated nor suppressed. -/
theorem duplicate_delivery_appends_twice (now : Int) (m : String)
    (ch : FeedChange) (st : CDCState)
    (h : st.changeLog.length + 2 ≤ maxChangeLogSize) :
    (handleChange now m ch (handleChange now m ch st)).changeLog
      = st.changeLog ++ [stampChange now m ch, stampChange now m ch] ∧
    (handleChange now m ch (handleChange now m ch st)).changeLog
      ≠ (handleChange now m ch st).changeLog := by
  have hroom1 : st.changeLog.length < maxChangeLogSize := by omega
  have h1 : (handleChange now m ch st).changeLog
      = st.changeLog ++ [stampChange now m ch] := by
    rw [handleChange_changeLog, logChange_of_room _ hroom1]
  have hlen : (st.changeLog ++ [stampChange now m ch]).length < maxChangeLogSize := by
    simp only [List.length_append, List.length_cons, List.length_nil]
    omega
  have h2 : (handleChange now m ch (handleChange now m ch st)).changeLog
      = st.changeLog ++ [stampChange now m ch, stampChange now m ch] := by
    rw [handleChange_changeLog, h1, logChange_of_room _ hlen, List.append_assoc]
    rfl
  refine ⟨h2, ?_⟩
  rw [h1, h2]
  intro hEq
  have hlen2 := congrArg List.length hEq
  simp only [List.length_append, List.length_cons, List.length_nil] at hlen2
  omega

/-- Witness for C9 amended at a concrete state. -/
theorem duplicate_delivery_appends_twice_witness :
    cdcInit.changeLog.length + 2 ≤ maxChangeLogSize ∧
    (handleChange 5 "Player" sampleFeedChange
        (handleChange 5 "Player" sampleFeedChange cdcInit)).changeLog
      = cdcInit.changeLog
          ++ [stampChange 5 "Player" sampleFeedChange,
              stampChange 5 "Player" sampleFeedChange] :=
  ⟨by decide,
   (duplicate_delivery_appends_twice 5 "Player" sampleFeedChange cdcInit (by decide)).1⟩

/-! ## Lemmas about the expiry sweep -/

theorem isExpiredActive_expireOne (today : Int) (c : Contract) :
    isExpiredActive today (expireOne today c) = false := by
  unfold expireOne
  split
  · simp [isExpiredActive]
  · rename_i h
    simp only [Bool.not_eq_true] at h
    exact h

theorem expireOne_of_not (today : Int) (c : Contract)
    (h : isExpiredActive today c = false) : expireOne today c = c := by
  unfold expireOne
  rw [if_neg]
  simp [h]

theorem expireOne_idem (today : Int) (c : Contract) :
    expireOne today (expireOne today c) = expireOne today c :=
  expireOne_of_not today _ (isExpiredActive_expireOne today c)

/-! ## C7 -/

/-- C7: the expiry sweep is idempotent over a fixed reference date. If
running processExpiredContracts at date today produced the state db1 then
running it again at the same date updates no contract and returns the count
zero. -/
theorem sweep_idempotent (today : Int) (db : DB) (n : Nat) (db1 : DB)
    (h : processExpiredContracts today db = (Except.ok n, db1)) :
    processExpiredContracts today db1 = (Except.ok 0, db1) := by
  unfold processExpiredContracts at h ⊢
  dsimp only at h ⊢
  have hdb1 : db1 = { db with contracts := db.contracts.map (expireOne today) } := by
    have := congrArg Prod.snd h
    exact this.symm
  subst hdb1
  have hfilter : (db.contracts.map (expireOne today)).filter (isExpiredActive today) = [] := by
    rw [List.filter_eq_nil_iff]
    intro a ha
    rcases List.mem_map.1 ha with ⟨c, _, rfl⟩
    simp [isExpiredActive_expireOne]
  have hmap : (db.contracts.map (expireOne today)).map (expireOne today)
      = db.contracts.map (expireOne today) := by
    rw [List.map_map]
    apply List.map_congr_left
    intro c _
    exact expireOne_idem today c
  rw [hfilter, hmap]
  rfl

/-- Witness for C7: sweeping dbExpiring at time 100 expires one contract;
the immediate second sweep at time 100 reports zero updates and leaves the
state untouched. -/
theorem sweep_idempotent_witness :
    processExpiredContracts 100 dbExpiredOnce = (Except.ok 0, dbExpiredOnce) :=
  sweep_idempotent 100 dbExpiring 1 dbExpiredOnce (by rfl)

/-! ## Purity lemmas for the validators -/

theorem bindE_snd_eq {α β : Type} (r : Except ErrorResponse α × DB) (db : DB)
    (f : α → DB → Except ErrorResponse β × DB)
    (h1 : r.2 = db) (h2 : ∀ a, (f a db).2 = db) : (bindE r f).2 = db := by
  rcases r with ⟨fst, snd⟩
  cases fst
  · exact h1
  · rename_i a
    dsimp only at h1
    subst h1
    exact h2 a

theorem validateClubBudgets_snd (a b : Nat) (fee : ℚ) (db : DB) :
    (validateClubBudgets a b fee db).2 = db := by
  unfold validateClubBudgets
  split
  · rfl
  · split <;> rfl

theorem validateContractStatus_snd (pid : Nat) (db : DB) :
    (validateContractStatus pid db).2 = db := by
  unfold validateContractStatus
  split <;> rfl

theorem validateSquadRegistration_snd (cid : Nat) (db : DB) :
    (validateSquadRegistration cid db).2 = db := by
  unfold validateSquadRegistration
  split
  · rfl
  · split <;> rfl

theorem validateTransfer_snd (d : TransferData) (db : DB) :
    (validateTransfer d db).2 = db := by
  unfold validateTransfer
  split
  · rfl
  · split
    · rfl
    · apply bindE_snd_eq _ _ _ (validateClubBudgets_snd _ _ _ _)
      intro _
      apply bindE_snd_eq _ _ _ (validateContractStatus_snd _ _)
      intro _
      exact validateSquadRegistration_snd _ _

theorem validateContract_snd (d : ContractData) (db : DB) :
    (validateContract d db).2 = db := by
  unfold validateContract
  split
  · split
    · rfl
    · split
      · rfl
      · split
        · rfl
        · split
          · rfl
          · split
            · rfl
            · split
              · rfl
              · split <;> rfl
  · rfl

theorem reserveFunds_transfers (c : Nat) (fee : ℚ) (db : DB) :
    ((reserveFunds c fee db).2).transfers = db.transfers := by
  unfold reserveFunds
  split
  · rfl
  · split <;> rfl

/-! ## C10 -/

/-- C10: a transfer returned by a successful initiateTransfer has status
Pending: the engine writes the new document with an explicit Pending status
that overrides any status carried by the input data (the spread puts the
explicit field last), and the returned id is the id of that document, which
is appended to the transfer collection. By contrast a Transfer document
created outside the engine with no status field receives the schema default
Completed. -/
theorem initiated_transfer_is_pending :
    (∀ (data : TransferData) (db : DB) (tid : Nat) (db' : DB),
      initiateTransfer data db = (Except.ok tid, db') →
        tid = db.nextId ∧
        db'.transfers = db.transfers
          ++ [schemaNewTransfer db.nextId data (some TransferStatus.Pending)] ∧
        (schemaNewTransfer db.nextId data (some TransferStatus.Pending)).status
          = TransferStatus.Pending) ∧
    (∀ (id : Nat) (d : TransferData), d.status = none →
      (schemaCreateTransfer id d).status = TransferStatus.Completed) := by
  constructor
  · intro data db tid db' h
    unfold initiateTransfer withTransaction at h
    split at h
    · rename_i a db2 hbody
      injection h with h1 h2
      injection h1 with h1
      subst h1
      subst h2
      unfold initiateTransferIn bindE at hbody
      split at hbody
      · exact absurd hbody (by simp)
      · rename_i u db1 hval
        have hdb1 : db1 = db := by
          have := congrArg Prod.snd hval
          simpa [validateTransfer_snd] using this.symm
        subst db1
        dsimp only at hbody
        split at hbody
        · exact absurd hbody (by simp)
        · rename_i u2 db3 hres
          injection hbody with hb1 hb2
          injection hb1 with hb1
          have htr : db3.transfers
              = db.transfers ++ [schemaNewTransfer db.nextId data (some TransferStatus.Pending)] := by
            have := congrArg (fun x => x.2.transfers) hres
            simpa [reserveFunds_transfers] using this.symm
          subst hb2
          exact ⟨hb1.symm, htr, rfl⟩
    · exact absurd h (by simp)
  · intro id d hd
    unfold schemaCreateTransfer schemaNewTransfer
    rw [hd]
    rfl

/-- Witness for C10: initiating statusCarryingData, whose status field is
Completed, still yields a Pending document, and a bare schema creation from
a status-free body defaults to Completed. -/
theorem initiated_transfer_is_pending_witness :
    (10 = dbPreTransfer.nextId ∧
      dbInitiated.transfers = dbPreTransfer.transfers
        ++ [schemaNewTransfer dbPreTransfer.nextId statusCarryingData
              (some TransferStatus.Pending)] ∧
      (schemaNewTransfer dbPreTransfer.nextId statusCarryingData
          (some TransferStatus.Pending)).status = TransferStatus.Pending) ∧
    (schemaCreateTransfer 5 octoberTransferData).status = TransferStatus.Completed :=
  ⟨initiated_transfer_is_pending.1 statusCarryingData dbPreTransfer 10 dbInitiated
      (by norm_num [initiateTransfer, initiateTransferIn, validateTransfer,
        validateTransferWindow, validateClubBudgets, validateContractStatus,
        validateSquadRegistration, withTransaction, bindE, findPlayer, findClub,
        findTransfer, schemaNewTransfer, reserveFunds, updateClubIn,
        calculateTransferBudgetImpact, sellOnDeduction, dbPreTransfer, dbInitiated,
        statusCarryingData, sellOnTransferData, samplePlayer, originClub, destClub,
        activeContract]),
   initiated_transfer_is_pending.2 5 octoberTransferData rfl⟩

/-! ## Error propagation through the transactions -/

theorem createContract_of_validate_error (data : ContractData) (db : DB)
    (err : ErrorResponse) (h : validateContract data db = (Except.error err, db)) :
    createContract data db = (Except.error err, db) := by
  unfold createContract withTransaction createContractIn bindE
  rw [h]

theorem initiateTransfer_of_validate_error (data : TransferData) (db : DB)
    (err : ErrorResponse) (h : validateTransfer data db = (Except.error err, db)) :
    initiateTransfer data db = (Except.error err, db) := by
  unfold initiateTransfer withTransaction initiateTransferIn bindE
  rw [h]

/-! ## C2 -/

/-- C2 counterexample: a contract-creation input whose end date equals its
start date but whose player reference is dangling fails with a NotFound
error of status 404, not with a ValidationError of status 400, so the claim
that every such input fails with a ValidationError is false (no record is
persisted either way). -/
theorem createContract_badDates_notFound :
    badDatesData.endDate = some 5 ∧ badDatesData.startDate = some 5 ∧
    createContract badDatesData dbEmpty
      = (Except.error ⟨"Player not found with id 1", 404⟩, dbEmpty) ∧
    (404 : Nat) ≠ 400 := by
  refine ⟨rfl, rfl, ?_, by decide⟩
  apply createContract_of_validate_error
  rfl

/-- C2 amended: every contract-creation input with endDate less than or
equal to startDate makes createContract fail and leaves the database exactly
as before the call; the failure is the 400 ValidationError about date order
whenever the required fields are present and the referenced player and club
exist, and a 404 NotFound otherwise. -/
theorem createContract_badDates_fails (data : ContractData) (db : DB)
    (s e : Int) (hs : data.startDate = some s) (he : data.endDate = some e)
    (hle : e ≤ s) :
    (∃ err, createContract data db = (Except.error err, db)) ∧
    (∀ pid cid, data.playerId = some pid → data.clubId = some cid →
      data.salary.isSome → (findPlayer pid db).isSome → (findClub cid db).isSome →
      createContract data db
        = (Except.error ⟨"Contract end date must be after start date", 400⟩, db)) := by
  constructor
  · rcases hp : data.playerId with _ | pid
    · exact ⟨_, createContract_of_validate_error _ _ _
        (by unfold validateContract; simp only [hp, hs, he]; rfl)⟩
    · rcases hc : data.clubId with _ | cid
      · exact ⟨_, createContract_of_validate_error _ _ _
          (by unfold validateContract; simp only [hp, hc, hs, he]; rfl)⟩
      · rcases hsal : data.salary with _ | sal
        · exact ⟨_, createContract_of_validate_error _ _ _
            (by unfold validateContract; simp only [hp, hc, hs, he, hsal]; rfl)⟩
        · rcases hfp : findPlayer pid db with _ | p
          · exact ⟨_, createContract_of_validate_error _ _ _
              (by unfold validateContract; simp only [hp, hc, hs, he, hsal, hfp]; rfl)⟩
          · rcases hfc : findClub cid db with _ | club
            · exact ⟨_, createContract_of_validate_error _ _ _
                (by unfold validateContract; simp only [hp, hc, hs, he, hsal, hfp, hfc]; rfl)⟩
            · refine ⟨⟨"Contract end date must be after start date", 400⟩,
                createContract_of_validate_error _ _ _ ?_⟩
              unfold validateContract
              simp only [hp, hc, hs, he, hsal, hfp, hfc]
              rw [if_pos hle]
  · intro pid cid hp hc hsal hfp hfc
    rcases Option.isSome_iff_exists.1 hsal with ⟨sal, hsal2⟩
    rcases Option.isSome_iff_exists.1 hfp with ⟨p, hfp2⟩
    rcases Option.isSome_iff_exists.1 hfc with ⟨club, hfc2⟩
    apply createContract_of_validate_error
    unfold validateContract
    simp only [hp, hc, hs, he, hsal2, hfp2, hfc2]
    rw [if_pos hle]

/-- Witness for C2 amended: the same bad-dates input against a state where
player 1 and club 2 exist produces exactly the date-order ValidationError
and the untouched state. -/
theorem createContract_badDates_fails_witness :
    createContract badDatesData dbPreTransfer
      = (Except.error ⟨"Contract end date must be after start date", 400⟩, dbPreTransfer) :=
  (createContract_badDates_fails badDatesData dbPreTransfer 5 5 rfl rfl (by decide)).2
    1 2 rfl rfl (by decide) (by decide) (by decide)

/-! ## C4 -/

/-- C4 counterexample: a transfer request dated in October whose player
reference is dangling fails with a NotFound error of status 404, not with a
ValidationError of status 400, so the claim that every out-of-window request
fails with a ValidationError is false (no transfer is created and no budget
is touched either way). -/
theorem initiateTransfer_october_notFound :
    validateTransferWindow octoberTransferData.date = false ∧
    initiateTransfer octoberTransferData dbEmpty
      = (Except.error ⟨"Player not found with ID 1", 404⟩, dbEmpty) ∧
    (404 : Nat) ≠ 400 := by
  refine ⟨rfl, ?_, by decide⟩
  apply initiateTransfer_of_validate_error
  rfl

/-- C4 amended: every transfer request dated in a month outside the Summer
(June to August) and Winter (January) windows makes initiateTransfer fail
and leaves the database exactly as before the call, so no Transfer record is
created and every club budget is unchanged; the failure is the 400
ValidationError about the transfer window whenever the referenced player
exists, and a 404 NotFound otherwise. -/
theorem initiateTransfer_outside_window_fails (data : TransferData) (db : DB)
    (hw : validateTransferWindow data.date = false) :
    (∃ err, initiateTransfer data db = (Except.error err, db)) ∧
    ((findPlayer data.playerId db).isSome →
      initiateTransfer data db
        = (Except.error ⟨"Transfer date is outside valid transfer windows", 400⟩, db)) := by
  constructor
  · rcases hfp : findPlayer data.playerId db with _ | p
    · exact ⟨_, initiateTransfer_of_validate_error _ _ _
        (by unfold validateTransfer; simp only [hfp]; rfl)⟩
    · refine ⟨⟨"Transfer date is outside valid transfer windows", 400⟩,
        initiateTransfer_of_validate_error _ _ _ ?_⟩
      unfold validateTransfer
      simp only [hfp]
      rw [if_pos (by rw [hw]; rfl)]
  · intro hfp
    rcases Option.isSome_iff_exists.1 hfp with ⟨p, hfp2⟩
    apply initiateTransfer_of_validate_error
    unfold validateTransfer
    simp only [hfp2]
    rw [if_pos (by rw [hw]; rfl)]

/-- Witness for C4 amended: the October request against a state where player
1 exists produces exactly the window ValidationError and the untouched
state. -/
theorem initiateTransfer_outside_window_fails_witness :
    initiateTransfer octoberTransferData dbPreTransfer
      = (Except.error ⟨"Transfer date is outside valid transfer windows", 400⟩,
          dbPreTransfer) :=
  (initiateTransfer_outside_window_fails octoberTransferData dbPreTransfer rfl).2
    (by decide)

/-! ## Lemmas about clause maps -/

theorem mapGet_mapSet_same (m : List (String × ClauseVal)) (k : String)
    (v : ClauseVal) : mapGet (mapSet m k v) k = some v := by
  induction m with
  | nil => simp [mapSet, mapGet]
  | cons kv rest ih =>
    by_cases h : kv.1 = k
    · simp [mapSet, mapGet, h]
    · simp only [mapSet, mapGet] at ih ⊢
      rw [if_neg (by simp [h])]
      rw [List.find?_cons_of_neg _ (by simp [h])]
      exact ih

theorem mapGet_mapSet_ne (m : List (String × ClauseVal)) (k k2 : String)
    (v : ClauseVal) (hk : k ≠ k2) : mapGet (mapSet m k v) k2 = mapGet m k2 := by
  induction m with
  | nil => simp [mapSet, mapGet, hk]
  | cons kv rest ih =>
    by_cases h : kv.1 = k
    · simp only [mapSet, mapGet]
      rw [if_pos (by simp [h])]
      rw [List.find?_cons_of_neg _ (by simp [hk]),
        List.find?_cons_of_neg _ (by simp [h, hk])]
    · simp only [mapSet, mapGet] at ih ⊢
      rw [if_neg (by simp [h])]
      by_cases h2 : kv.1 = k2
      · rw [List.find?_cons_of_pos _ (by simp [h2]),
          List.find?_cons_of_pos _ (by simp [h2])]
      · rw [List.find?_cons_of_neg _ (by simp [h2]),
          List.find?_cons_of_neg _ (by simp [h2])]
        exact ih

theorem mapGet_terminateChange_reason (now : Int) (td : TerminationData)
    (c : Contract) :
    mapGet (terminateChange now td c).clauses "terminationReason"
      = some (ClauseVal.str (terminationReasonOf td)) := by
  unfold terminateChange
  dsimp only
  split
  · rename_i fee
    split
    · rw [mapGet_mapSet_ne _ _ _ _ (by decide)]
      exact mapGet_mapSet_same _ _ _
    · rw [mapGet_mapSet_ne _ _ _ _ (by decide), mapGet_mapSet_ne _ _ _ _ (by decide)]
      exact mapGet_mapSet_same _ _ _
  · rw [mapGet_mapSet_ne _ _ _ _ (by decide)]
    exact mapGet_mapSet_same _ _ _

/-! ## Lemmas about lookups after pointwise saves -/

theorem find?_map_of_pred_invariant {α : Type} (l : List α) (g : α → α)
    (p : α → Bool) (h : ∀ a, p (g a) = p a) :
    (l.map g).find? p = (l.find? p).map g := by
  induction l with
  | nil => rfl
  | cons a t ih =>
    by_cases hp : p a
    · rw [List.map_cons, List.find?_cons_of_pos _ (by rw [h a]; exact hp),
        List.find?_cons_of_pos _ hp]
      rfl
    · rw [List.map_cons,
        List.find?_cons_of_neg _ (by rw [h a]; simpa using hp),
        List.find?_cons_of_neg _ (by simpa using hp)]
      exact ih

theorem findPlayer_updatePlayerIn (pid x : Nat) (f : Player → Player)
    (hid : ∀ p, (f p).id = p.id) (db : DB) :
    findPlayer pid (updatePlayerIn x f db)
      = (findPlayer pid db).map (fun p => if p.id == x then f p else p) := by
  unfold findPlayer updatePlayerIn
  dsimp only
  apply find?_map_of_pred_invariant
  intro p
  by_cases h : p.id == x <;> simp [h, hid]

theorem findClub_updateClubIn (cid x : Nat) (f : Club → Club)
    (hid : ∀ c, (f c).id = c.id) (db : DB) :
    findClub cid (updateClubIn x f db)
      = (findClub cid db).map (fun c => if c.id == x then f c else c) := by
  unfold findClub updateClubIn
  dsimp only
  apply find?_map_of_pred_invariant
  intro c
  by_cases h : c.id == x <;> simp [h, hid]

theorem findTransfer_updateTransferIn (tid x : Nat) (f : Transfer → Transfer)
    (hid : ∀ t, (f t).id = t.id) (db : DB) :
    findTransfer tid (updateTransferIn x f db)
      = (findTransfer tid db).map (fun t => if t.id == x then f t else t) := by
  unfold findTransfer updateTransferIn
  dsimp only
  apply find?_map_of_pred_invariant
  intro t
  by_cases h : t.id == x <;> simp [h, hid]

/-! ## Projection lemmas for the session steps -/

theorem attachPlayerAndSquad_contracts (pid cid : Nat) (db : DB) :
    (attachPlayerAndSquad pid cid db).contracts = db.contracts := by
  unfold attachPlayerAndSquad
  dsimp only
  split
  · split
    · split <;> rfl
    · split <;> rfl
  · split <;> rfl

theorem attachPlayerAndSquad_transfers (pid cid : Nat) (db : DB) :
    (attachPlayerAndSquad pid cid db).transfers = db.transfers := by
  unfold attachPlayerAndSquad
  dsimp only
  split
  · split
    · split <;> rfl
    · split <;> rfl
  · split <;> rfl

theorem attachPlayerAndSquad_nextId (pid cid : Nat) (db : DB) :
    (attachPlayerAndSquad pid cid db).nextId = db.nextId := by
  unfold attachPlayerAndSquad
  dsimp only
  split
  · split
    · split <;> rfl
    · split <;> rfl
  · split <;> rfl

theorem budgetOf_updateClubIn_preserve (cid x : Nat) (f : Club → Club)
    (hid : ∀ c, (f c).id = c.id) (hb : ∀ c, (f c).budget = c.budget) (db : DB) :
    budgetOf cid (updateClubIn x f db) = budgetOf cid db := by
  unfold budgetOf
  rw [findClub_updateClubIn cid x f hid]
  cases h : findClub cid db with
  | none => rfl
  | some c =>
    by_cases hx : c.id = x <;> simp [hx, hb]

theorem budgetOf_attachPlayerAndSquad (cid pid cid2 : Nat) (db : DB) :
    budgetOf cid (attachPlayerAndSquad pid cid2 db) = budgetOf cid db := by
  unfold attachPlayerAndSquad
  dsimp only
  split
  · split
    · split <;> rfl
    · rw [budgetOf_updateClubIn_preserve cid cid2
        (fun cl => { cl with currentSquad := cl.currentSquad ++ [pid] })
        (fun c => rfl) (fun c => rfl)]
      split <;> rfl
  · split <;> rfl

theorem findPlayer_isSome_attachPlayerAndSquad (pid2 pid cid : Nat) (db : DB) :
    (findPlayer pid2 (attachPlayerAndSquad pid cid db)).isSome
      = (findPlayer pid2 db).isSome := by
  unfold attachPlayerAndSquad
  dsimp only
  have hstep : ∀ db0 : DB,
      (findPlayer pid2 (updatePlayerIn pid
          (fun p => { p with currentClub := some cid }) db0)).isSome
        = (findPlayer pid2 db0).isSome := by
    intro db0
    rw [findPlayer_updatePlayerIn pid2 pid
      (fun p => { p with currentClub := some cid }) (fun p => rfl) db0]
    cases findPlayer pid2 db0 <;> rfl
  split
  · split
    · split
      · exact hstep _
      · rfl
    · split
      · exact hstep _
      · rfl
  · split
    · exact hstep _
    · rfl

/-! ## Inversion lemmas for the contract operations -/

theorem validateContract_ok (d : ContractData) (db db1 : DB) (pid cid : Nat)
    (s e : Int) (sal : ℚ)
    (h : validateContract d db = (Except.ok (pid, cid, s, e, sal), db1)) :
    db1 = db ∧ d.playerId = some pid ∧ d.clubId = some cid ∧
    d.startDate = some s ∧ d.endDate = some e ∧ d.salary = some sal ∧
    db.contracts.find? (fun c => c.playerId == pid &&
      c.status == ContractStatus.Active && c.clubId != cid) = none := by
  have hdb : db1 = db := by
    have h2 := congrArg Prod.snd h
    rw [validateContract_snd] at h2
    exact h2.symm
  refine ⟨hdb, ?_⟩
  unfold validateContract at h
  split at h
  · rename_i pid2 cid2 s2 e2 sal2 hp hc hs he hsal
    split at h
    · exact absurd (congrArg Prod.fst h) (by simp)
    · split at h
      · exact absurd (congrArg Prod.fst h) (by simp)
      · split_ifs at h
        · exact absurd (congrArg Prod.fst h) (by simp)
        · exact absurd (congrArg Prod.fst h) (by simp)
        · exact absurd (congrArg Prod.fst h) (by simp)
        · split at h <;> exact absurd (congrArg Prod.fst h) (by simp)
        · split at h
          · exact absurd (congrArg Prod.fst h) (by simp)
          · rename_i hnone
            simp only [Prod.mk.injEq, Except.ok.injEq] at h
            obtain ⟨⟨h1, h2, h3, h4, h5⟩, -⟩ := h
            subst h1; subst h2; subst h3; subst h4; subst h5
            exact ⟨hp, hc, hs, he, hsal, hnone⟩
  · exact absurd (congrArg Prod.fst h) (by simp)

theorem terminateContractIn_ok (now : Int) (cid : Nat) (td : TerminationData)
    (db : DB) (r : Nat) (db1 : DB)
    (h : terminateContractIn now cid td db = (Except.ok r, db1)) :
    ∃ oldC, findContract cid db = some oldC ∧
      oldC.status = ContractStatus.Active ∧ r = cid ∧
      db1 = updateContractIn cid (terminateChange now td) db := by
  unfold terminateContractIn at h
  split at h
  · exact absurd h (by simp)
  · rename_i oldC heq
    split at h
    · exact absurd h (by simp)
    · rename_i hstat
      simp only [Prod.mk.injEq, Except.ok.injEq] at h
      obtain ⟨hr, hdb⟩ := h
      refine ⟨oldC, heq, ?_, hr.symm, hdb.symm⟩
      simpa using hstat

theorem createContractIn_ok (d : ContractData) (db : DB) (c : Contract)
    (db1 : DB) (h : createContractIn d db = (Except.ok c, db1)) :
    d.playerId = some c.playerId ∧ d.clubId = some c.clubId ∧
    d.startDate = some c.startDate ∧ d.endDate = some c.endDate ∧
    d.salary = some c.salary ∧
    c.id = db.nextId ∧ c.clauses = d.clauses ∧ c.status = ContractStatus.Active ∧
    db.contracts.find? (fun x => x.playerId == c.playerId &&
      x.status == ContractStatus.Active && x.clubId != c.clubId) = none ∧
    db1.contracts = db.contracts ++ [c] ∧
    db1.nextId = db.nextId + 1 ∧
    db1.transfers = db.transfers ∧
    (∀ x, budgetOf x db1 = budgetOf x db) ∧
    (∀ x, (findPlayer x db1).isSome = (findPlayer x db).isSome) := by
  unfold createContractIn bindE at h
  split at h
  · exact absurd h (by simp)
  · rename_i fields db0 hval
    obtain ⟨pid, cid, s, e, sal⟩ := fields
    dsimp only at h
    simp only [Prod.mk.injEq, Except.ok.injEq] at h
    obtain ⟨hc, hdb⟩ := h
    have hv := validateContract_ok d db db0 pid cid s e sal hval
    obtain ⟨hdb0, hp, hcid, hs, he, hsal, hnone⟩ := hv
    subst hdb0
    subst hc
    subst hdb
    refine ⟨hp, hcid, hs, he, hsal, rfl, rfl, rfl, hnone, ?_, ?_, ?_, ?_, ?_⟩
    · rw [attachPlayerAndSquad_contracts]
    · rw [attachPlayerAndSquad_nextId]
    · rw [attachPlayerAndSquad_transfers]
    · intro x
      rw [budgetOf_attachPlayerAndSquad]
      rfl
    · intro x
      rw [findPlayer_isSome_attachPlayerAndSquad]
      rfl

theorem updatePlayerValueOnRenewal_contracts (pid : Nat) (nc : Contract)
    (db : DB) : ((updatePlayerValueOnRenewal pid nc db).2).contracts = db.contracts := by
  unfold updatePlayerValueOnRenewal
  split <;> rfl

/-! ## C5 -/

/-- C5: a successful renewal of an Active contract creates exactly one new
Active contract for the same player and club carrying the new terms (start
date now, the new end date and salary, and the fresh id), and turns the
renewed contract into a Terminated one whose terminationReason clause is
"Renewal"; every other contract is untouched and the total count grows by
exactly one. If any step of the renewal fails the transaction is aborted and
the database is exactly the one before the call. The freshness hypothesis
says the id counter is not already in use, which every state created through
the engine satisfies. -/
theorem renewContract_spec (now : Int) (contractId : Nat) (rd : ContractTerms)
    (db : DB) (hfresh : ∀ c ∈ db.contracts, c.id ≠ db.nextId) :
    (∀ newC db2, renewContract now contractId rd db = (Except.ok newC, db2) →
      ∃ oldC, findContract contractId db = some oldC ∧
        oldC.status = ContractStatus.Active ∧
        newC.playerId = oldC.playerId ∧
        newC.clubId = oldC.clubId ∧
        newC.status = ContractStatus.Active ∧
        newC.startDate = now ∧
        newC.endDate = rd.endDate ∧
        newC.salary = rd.salary ∧
        newC.id = db.nextId ∧
        newC ∈ db2.contracts ∧
        (∀ c ∈ db2.contracts, c.id = contractId →
          c.status = ContractStatus.Terminated ∧
          mapGet c.clauses "terminationReason" = some (ClauseVal.str "Renewal")) ∧
        db2.contracts.length = db.contracts.length + 1 ∧
        (∀ c ∈ db.contracts, c.id ≠ contractId → c ∈ db2.contracts)) ∧
    (∀ err db2, renewContract now contractId rd db = (Except.error err, db2) →
      db2 = db) := by
  constructor
  · intro newC db2 h
    unfold renewContract withTransaction at h
    split at h
    case _ a db3 hbody0 =>
      have hbody : renewContractIn now contractId rd db = (Except.ok newC, db2) :=
        hbody0.trans h
      clear hbody0 h
      unfold renewContractIn at hbody
      split at hbody
      · exact absurd (congrArg Prod.fst hbody) (by simp)
      · rename_i oldC hfind
        split at hbody
        · exact absurd (congrArg Prod.fst hbody) (by simp)
        · rename_i hstat
          unfold bindE at hbody
          split at hbody
          · exact absurd (congrArg Prod.fst hbody) (by simp)
          · rename_i r1 dbA hterm
            obtain ⟨oldC2, hfind2, hact2, hr2, hdbA⟩ :=
              terminateContractIn_ok now contractId { reason := some "Renewal" }
                db r1 dbA hterm
            dsimp only at hbody
            split at hbody
            · exact absurd (congrArg Prod.fst hbody) (by simp)
            · rename_i nc dbB hcreate
              obtain ⟨hcp, hcc, hcs, hce, hcsal, hcid, hclauses, hcstatus,
                hnone, hdbBcontracts, hdbBnext, hdbBtransf, hbudg, hfp⟩ :=
                createContractIn_ok _ _ _ _ hcreate
              try dsimp only at hbody
              split at hbody
              · exact absurd (congrArg Prod.fst hbody) (by simp)
              · rename_i r3 dbC hup
                injection hbody with hb1 hb2
                injection hb1 with hb1
                have hc2 : db2.contracts = dbB.contracts := by
                  have h4 := congrArg Prod.snd hup
                  dsimp only at h4
                  rw [hb2] at h4
                  have h5 := congrArg DB.contracts h4
                  rw [updatePlayerValueOnRenewal_contracts] at h5
                  exact h5.symm
                have hOldId : oldC.id = contractId := by
                  have := List.find?_some hfind
                  simpa using this
                have hOldMem : oldC ∈ db.contracts :=
                  List.mem_of_find?_eq_some hfind
                have hcontractIdNe : contractId ≠ db.nextId := by
                  intro hx
                  exact hfresh oldC hOldMem (hOldId ▸ hx)
                have hANext : dbA.nextId = db.nextId := by
                  rw [hdbA]
                  rfl
                have hAcontracts : dbA.contracts = db.contracts.map
                    (fun c => if c.id == contractId then
                      terminateChange now { reason := some "Renewal" } c else c) := by
                  rw [hdbA]
                  rfl
                subst hb1
                have hncPlayer : nc.playerId = oldC.playerId := by
                  injection hcp.symm
                have hncClub : nc.clubId = oldC.clubId := by
                  injection hcc.symm
                have hncStart : nc.startDate = now := by
                  injection hcs.symm
                have hncEnd : nc.endDate = rd.endDate := by
                  injection hce.symm
                have hncSal : nc.salary = rd.salary := by
                  injection hcsal.symm
                refine ⟨oldC, hfind, by simpa using hstat, hncPlayer, hncClub,
                  hcstatus, hncStart, hncEnd, hncSal, by rw [hcid, hANext], ?_, ?_, ?_, ?_⟩
                · rw [hc2, hdbBcontracts]
                  exact List.mem_append_right _ (by simp)
                · intro c hcmem hcid2
                  rw [hc2, hdbBcontracts] at hcmem
                  rcases List.mem_append.1 hcmem with hin | hin
                  · rw [hAcontracts] at hin
                    rcases List.mem_map.1 hin with ⟨c0, hc0mem, hc0eq⟩
                    by_cases hx : c0.id = contractId
                    · rw [if_pos (by simpa using hx)] at hc0eq
                      subst hc0eq
                      constructor
                      · rfl
                      · rw [mapGet_terminateChange_reason]
                        rfl
                    · rw [if_neg (by simpa using hx)] at hc0eq
                      subst hc0eq
                      exact absurd hcid2 hx
                  · have hceq : c = nc := by simpa using hin
                    subst hceq
                    exact absurd (hcid2.symm.trans (hcid.trans hANext)) hcontractIdNe
                · rw [hc2, hdbBcontracts, hAcontracts]
                  simp
                · intro c hcmem hcne
                  rw [hc2, hdbBcontracts, hAcontracts]
                  apply List.mem_append_left
                  have hgc : (fun x => if x.id == contractId then
                      terminateChange now { reason := some "Renewal" } x else x) c = c := by
                    show (if c.id == contractId then
                      terminateChange now { reason := some "Renewal" } c else c) = c
                    rw [if_neg (show ¬((c.id == contractId) = true) by simpa using hcne)]
                  exact List.mem_map.2 ⟨c, hcmem, hgc⟩
    case _ e db3 hbody0 =>
      exact absurd (congrArg Prod.fst h) (by simp)
  · intro err db2 h
    unfold renewContract withTransaction at h
    split at h
    · exact absurd (congrArg Prod.fst h) (by simp)
    · injection h with h1 h2
      exact h2.symm

/-- Witness for C5: renewing the Active contract 4 of dbRenewable at time 0
with two-year terms succeeds, yielding exactly one new Active contract with
the fresh id 10 for the same player and club, while contract 4 becomes
Terminated with the reason clause "Renewal". -/
theorem renewContract_spec_witness :
    ∃ oldC, findContract 4 dbRenewable = some oldC ∧
      oldC.status = ContractStatus.Active ∧
      renewedContractDoc.playerId = oldC.playerId ∧
      renewedContractDoc.clubId = oldC.clubId ∧
      renewedContractDoc.status = ContractStatus.Active ∧
      renewedContractDoc.startDate = 0 ∧
      renewedContractDoc.endDate = sampleRenewalTerms.endDate ∧
      renewedContractDoc.salary = sampleRenewalTerms.salary ∧
      renewedContractDoc.id = dbRenewable.nextId ∧
      renewedContractDoc ∈ dbRenewed.contracts ∧
      (∀ c ∈ dbRenewed.contracts, c.id = 4 →
        c.status = ContractStatus.Terminated ∧
        mapGet c.clauses "terminationReason" = some (ClauseVal.str "Renewal")) ∧
      dbRenewed.contracts.length = dbRenewable.contracts.length + 1 ∧
      (∀ c ∈ dbRenewable.contracts, c.id ≠ 4 → c ∈ dbRenewed.contracts) :=
  (renewContract_spec 0 4 sampleRenewalTerms dbRenewable (by decide)).1
    renewedContractDoc dbRenewed
    (by simp [renewContract, renewContractIn, withTransaction, bindE,
      findContract, findPlayer, findClub, terminateContractIn, updateContractIn,
      terminateChange, terminationReasonOf, mapSet, createContractIn,
      validateContract, calculateClubSalaryExpenses, minContractDurationMs,
      maxContractDurationMs, attachPlayerAndSquad, updatePlayerIn, updateClubIn,
      updatePlayerValueOnRenewal, oneYearMs, jsRound, dbRenewable, dbRenewed,
      sampleRenewalTerms, samplePlayer, activeContract, renewedContractDoc] <;>
      norm_num)

/-! ## Lemmas about player records through the transfer steps -/

theorem findPlayer_eq_of_players_eq (pid : Nat) (db1 db2 : DB)
    (h : db1.players = db2.players) : findPlayer pid db1 = findPlayer pid db2 := by
  unfold findPlayer
  rw [h]

theorem marketValueOf_updatePlayerIn_set (pid : Nat) (v : ℚ) (db : DB)
    (h : (findPlayer pid db).isSome) :
    marketValueOf pid
      (updatePlayerIn pid (fun p => { p with marketValue := v }) db) = some v := by
  unfold marketValueOf
  rw [findPlayer_updatePlayerIn pid pid
    (fun p => { p with marketValue := v }) (fun p => rfl) db]
  rcases Option.isSome_iff_exists.1 h with ⟨p, hp⟩
  rw [hp]
  have hp2 := hp
  unfold findPlayer at hp2
  have hpid := List.find?_some hp2
  simp only [Option.map_some']
  simp at hpid
  simp [hpid]

/-! ## C6 -/

/-- C6 counterexample: completing the pending 7 million transfer of the
22-year-old player leaves the player market value at 6,300,000, the rounded
90 percent of the fee with no age adjustment, whereas the claim formula with
the under-23 boost of 1.2 and rounding to the nearest 100,000 yields
7,600,000. -/
theorem completeTransfer_value_not_claim_form :
    youngPlayer.age < 23 ∧
    marketValueOf 1 (completeTransfer 7 5 none dbPendingYoung).2 = some 6300000 ∧
    ((6300000 : ℚ)
      ≠ ((jsRound ((7000000 : ℚ) * (9 / 10) * (12 / 10) / 100000) * 100000 : ℤ) : ℚ)) := by
  refine ⟨by decide, ?_, by norm_num [jsRound]⟩
  simp [completeTransfer, completeTransferIn, withTransaction, bindE,
    findTransfer, findPlayer, findClub, findContract, terminateOldContract,
    terminateContractIn, updateContractIn, terminateChange, terminationReasonOf,
    mapSet, createNewContract, createContractIn, validateContract,
    calculateClubSalaryExpenses, attachPlayerAndSquad, updatePlayerIn,
    updateClubIn, updateTransferIn, updatePlayerValue, updateClubBudgets,
    sellOnDeduction, jsRound, marketValueOf, dbPendingYoung, youngPlayer,
    originClub, destClub, pendingTransfer] <;> norm_num

/-- C6 amended: for every successful completeTransfer, the post-transfer
market value of the transferred player is exactly round(0.9 × fee): the
persisted updatePlayerValue applies no age multiplier and no rounding to the
nearest 100,000. (The first transfer-service draft computed
round(round(fee × 0.9) × m) with m = 1.2 under 23 and m = 0.8 over 30, but
returned the freshly fetched player document without saving it, so that
value never reached the store.) -/
theorem completeTransfer_market_value (now : Int) (tid : Nat)
    (cd : Option ContractTerms) (db : DB) (t : Transfer)
    (ht : findTransfer tid db = some t) (r : Nat) (db2 : DB)
    (h : completeTransfer now tid cd db = (Except.ok r, db2)) :
    marketValueOf t.playerId db2
      = some ((jsRound (t.transferFee * (9 / 10)) : ℤ) : ℚ) := by
  unfold completeTransfer withTransaction at h
  split at h
  case _ a db3 hbody0 =>
    have hbody : completeTransferIn now tid cd db = (Except.ok r, db2) :=
      hbody0.trans h
    clear hbody0 h
    unfold completeTransferIn at hbody
    rw [ht] at hbody
    dsimp only at hbody
    split at hbody
    · exact absurd (congrArg Prod.fst hbody) (by simp)
    · split at hbody
      case _ player fromClub toClub hp hf htc =>
        unfold bindE at hbody
        split at hbody
        · exact absurd (congrArg Prod.fst hbody) (by simp)
        · rename_i r1 dbA hterm0
          have hAplayers : dbA.players = db.players := by
            split at hterm0
            · rename_i oc hoc
              obtain ⟨oc2, _, _, _, hdbA⟩ :=
                terminateContractIn_ok now oc.id {} db r1 dbA hterm0
              rw [hdbA]
              rfl
            · have h2 := congrArg Prod.snd hterm0
              dsimp only at h2
              rw [← h2]
          dsimp only at hbody
          split at hbody
          · exact absurd (congrArg Prod.fst hbody) (by simp)
          · rename_i nco dbB hcreate0
            have hBplayersSome : (findPlayer t.playerId dbB).isSome = true := by
              have hsome : (findPlayer t.playerId db).isSome = true := by
                rw [hp]
                rfl
              split at hcreate0
              · rename_i terms
                split at hcreate0
                · exact absurd (congrArg Prod.fst hcreate0) (by simp)
                · rename_i nc dbB0 hcr
                  obtain ⟨_, _, _, _, _, _, _, _, _, _, _, _, _, hfp⟩ :=
                    createContractIn_ok _ _ _ _ hcr
                  injection hcreate0 with hc1 hc2
                  rw [← hc2, hfp t.playerId,
                    findPlayer_eq_of_players_eq _ _ _ hAplayers]
                  exact hsome
              · injection hcreate0 with hc1 hc2
                rw [← hc2, findPlayer_eq_of_players_eq _ _ _ hAplayers]
                exact hsome
            try dsimp only at hbody
            unfold updatePlayerValue at hbody
            rw [findPlayer_updatePlayerIn t.playerId t.playerId
              (fun p => { p with currentClub := some t.toClub })
              (fun p => rfl) dbB] at hbody
            rcases Option.isSome_iff_exists.1 hBplayersSome with ⟨pb, hpb⟩
            rw [hpb] at hbody
            dsimp only [Option.map_some'] at hbody
            unfold updateClubBudgets at hbody
            dsimp only at hbody
            injection hbody with hb1 hb2
            have hfinal : db2.players
                = (updatePlayerIn t.playerId
                    (fun p => { p with marketValue :=
                      ((jsRound (t.transferFee * (9 / 10)) : ℤ) : ℚ) })
                    (updatePlayerIn t.playerId
                      (fun p => { p with currentClub := some t.toClub }) dbB)).players := by
              rw [← hb2]
              rfl
            unfold marketValueOf
            rw [findPlayer_eq_of_players_eq _ _ _ hfinal]
            have hsome2 : (findPlayer t.playerId
                (updatePlayerIn t.playerId
                  (fun p => { p with currentClub := some t.toClub }) dbB)).isSome = true := by
              rw [findPlayer_updatePlayerIn t.playerId t.playerId
                (fun p => { p with currentClub := some t.toClub })
                (fun p => rfl) dbB, hpb]
              rfl
            exact marketValueOf_updatePlayerIn_set _ _ _ hsome2
      case _ h1 h2 h3 h4 =>
        exact absurd (congrArg Prod.fst hbody) (by simp)
  case _ e db3 hbody0 =>
    exact absurd (congrArg Prod.fst h) (by simp)

/-- Witness for C6 amended at the concrete pending transfer: the value
becomes round(7,000,000 × 0.9) = 6,300,000. -/
theorem completeTransfer_market_value_witness :
    marketValueOf pendingTransfer.playerId dbCompleted
      = some ((jsRound (pendingTransfer.transferFee * (9 / 10)) : ℤ) : ℚ) :=
  completeTransfer_market_value 7 5 none dbPendingYoung pendingTransfer rfl
    5 dbCompleted
    (by simp [completeTransfer, completeTransferIn, withTransaction, bindE,
      findTransfer, findPlayer, findClub, findContract, terminateOldContract,
      terminateContractIn, updateContractIn, terminateChange, terminationReasonOf,
      mapSet, createNewContract, createContractIn, validateContract,
      calculateClubSalaryExpenses, attachPlayerAndSquad, updatePlayerIn,
      updateClubIn, updateTransferIn, updatePlayerValue, updateClubBudgets,
      sellOnDeduction, jsRound, dbPendingYoung, dbCompleted, youngPlayer,
      originClub, destClub, pendingTransfer] <;> norm_num)

/-! ## Budget lemmas for the transfer pipeline -/

theorem budgetOf_updateClubIn_self (cid : Nat) (f : Club → Club)
    (hid : ∀ c, (f c).id = c.id) (db : DB) :
    budgetOf cid (updateClubIn cid f db)
      = (findClub cid db).map (fun c => (f c).budget) := by
  unfold budgetOf
  rw [findClub_updateClubIn cid cid f hid]
  cases h : findClub cid db with
  | none => rfl
  | some c =>
    have h2 := h
    unfold findClub at h2
    have hpid := List.find?_some h2
    simp only [Option.map_some']
    simp at hpid
    simp [hpid]

theorem budgetOf_updateClubIn_other (x cid : Nat) (hne : x ≠ cid)
    (f : Club → Club) (hid : ∀ c, (f c).id = c.id) (db : DB) :
    budgetOf x (updateClubIn cid f db) = budgetOf x db := by
  unfold budgetOf
  rw [findClub_updateClubIn x cid f hid]
  cases h : findClub x db with
  | none => rfl
  | some c =>
    have h2 := h
    unfold findClub at h2
    have hpid := List.find?_some h2
    simp at hpid
    simp [hpid, hne]

theorem reserveFunds_ok_char (cid : Nat) (fee : ℚ) (db : DB) (u : Unit)
    (db1 : DB) (h : reserveFunds cid fee db = (Except.ok u, db1)) :
    db1 = updateClubIn cid (fun c => { c with budget := c.budget - fee }) db := by
  unfold reserveFunds at h
  split at h
  · exact absurd (congrArg Prod.fst h) (by simp)
  · split at h
    · exact absurd (congrArg Prod.fst h) (by simp)
    · injection h with h1 h2
      exact h2.symm

theorem initiateTransfer_ok_char (data : TransferData) (db : DB) (tid : Nat)
    (db1 : DB) (h : initiateTransfer data db = (Except.ok tid, db1)) :
    tid = db.nextId ∧
    db1.transfers = db.transfers
      ++ [schemaNewTransfer db.nextId data (some TransferStatus.Pending)] ∧
    db1.players = db.players ∧
    db1.contracts = db.contracts ∧
    budgetOf data.toClub db1
      = (budgetOf data.toClub db).map (fun b => b - data.transferFee) ∧
    (∀ x, x ≠ data.toClub → budgetOf x db1 = budgetOf x db) := by
  unfold initiateTransfer withTransaction at h
  split at h
  case _ a db3 hbody0 =>
    have hbody : initiateTransferIn data db = (Except.ok tid, db1) := hbody0.trans h
    clear hbody0 h
    unfold initiateTransferIn bindE at hbody
    split at hbody
    · exact absurd (congrArg Prod.fst hbody) (by simp)
    · rename_i u db0 hval
      have hdb0 : db0 = db := by
        have h2 := congrArg Prod.snd hval
        rw [validateTransfer_snd] at h2
        exact h2.symm
      subst db0
      dsimp only at hbody
      split at hbody
      · exact absurd (congrArg Prod.fst hbody) (by simp)
      · rename_i u2 dbR hres
        injection hbody with hb1 hb2
        injection hb1 with hb1
        subst db1
        have hdbR := reserveFunds_ok_char data.toClub data.transferFee _ u2 dbR hres
        subst dbR
        refine ⟨hb1.symm, rfl, rfl, rfl, ?_, ?_⟩
        · rw [budgetOf_updateClubIn_self data.toClub
            (fun c => { c with budget := c.budget - data.transferFee }) (fun c => rfl)]
          show (findClub data.toClub db).map
            (fun c => ({ c with budget := c.budget - data.transferFee } : Club).budget)
            = (budgetOf data.toClub db).map (fun b => b - data.transferFee)
          unfold budgetOf
          cases findClub data.toClub db <;> rfl
        · intro x hx
          rw [budgetOf_updateClubIn_other x data.toClub hx
            (fun c => { c with budget := c.budget - data.transferFee }) (fun c => rfl)]
          rfl
  case _ e db3 hbody0 =>
    exact absurd (congrArg Prod.fst h) (by simp)

theorem completeTransfer_ok_budgets (now : Int) (tid : Nat)
    (cd : Option ContractTerms) (db : DB) (t : Transfer)
    (ht : findTransfer tid db = some t) (r : Nat) (db2 : DB)
    (h : completeTransfer now tid cd db = (Except.ok r, db2)) :
    (∀ x, x ≠ t.fromClub → budgetOf x db2 = budgetOf x db) ∧
    budgetOf t.fromClub db2 = (budgetOf t.fromClub db).map
      (fun b => b + (t.transferFee - sellOnDeduction t.transferFee t.sellOnClause)) := by
  unfold completeTransfer withTransaction at h
  split at h
  case _ a db3 hbody0 =>
    have hbody : completeTransferIn now tid cd db = (Except.ok r, db2) :=
      hbody0.trans h
    clear hbody0 h
    unfold completeTransferIn at hbody
    rw [ht] at hbody
    dsimp only at hbody
    split at hbody
    · exact absurd (congrArg Prod.fst hbody) (by simp)
    · split at hbody
      case _ player fromClub toClub hp hf htc =>
        unfold bindE at hbody
        split at hbody
        · exact absurd (congrArg Prod.fst hbody) (by simp)
        · rename_i r1 dbA hterm0
          have hAbudgets : ∀ x, budgetOf x dbA = budgetOf x db := by
            intro x
            have hAclubs : dbA.clubs = db.clubs := by
              split at hterm0
              · rename_i oc hoc
                obtain ⟨oc2, _, _, _, hdbA⟩ :=
                  terminateContractIn_ok now oc.id {} db r1 dbA hterm0
                rw [hdbA]
                rfl
              · have h2 := congrArg Prod.snd hterm0
                dsimp only at h2
                rw [← h2]
            unfold budgetOf findClub
            rw [hAclubs]
          have hAplayers : dbA.players = db.players := by
            split at hterm0
            · rename_i oc hoc
              obtain ⟨oc2, _, _, _, hdbA⟩ :=
                terminateContractIn_ok now oc.id {} db r1 dbA hterm0
              rw [hdbA]
              rfl
            · have h2 := congrArg Prod.snd hterm0
              dsimp only at h2
              rw [← h2]
          dsimp only at hbody
          split at hbody
          · exact absurd (congrArg Prod.fst hbody) (by simp)
          · rename_i nco dbB hcreate0
            have hBbudgets : ∀ x, budgetOf x dbB = budgetOf x db := by
              intro x
              split at hcreate0
              · rename_i terms
                split at hcreate0
                · exact absurd (congrArg Prod.fst hcreate0) (by simp)
                · rename_i nc dbB0 hcr
                  obtain ⟨_, _, _, _, _, _, _, _, _, _, _, _, hbudg, _⟩ :=
                    createContractIn_ok _ _ _ _ hcr
                  injection hcreate0 with hc1 hc2
                  rw [← hc2, hbudg x, hAbudgets x]
              · injection hcreate0 with hc1 hc2
                rw [← hc2, hAbudgets x]
            have hBplayersSome : (findPlayer t.playerId dbB).isSome = true := by
              have hsome : (findPlayer t.playerId db).isSome = true := by
                rw [hp]
                rfl
              split at hcreate0
              · rename_i terms
                split at hcreate0
                · exact absurd (congrArg Prod.fst hcreate0) (by simp)
                · rename_i nc dbB0 hcr
                  obtain ⟨_, _, _, _, _, _, _, _, _, _, _, _, _, hfp2⟩ :=
                    createContractIn_ok _ _ _ _ hcr
                  injection hcreate0 with hc1 hc2
                  rw [← hc2, hfp2 t.playerId,
                    findPlayer_eq_of_players_eq _ _ _ hAplayers]
                  exact hsome
              · injection hcreate0 with hc1 hc2
                rw [← hc2, findPlayer_eq_of_players_eq _ _ _ hAplayers]
                exact hsome
            try dsimp only at hbody
            unfold updatePlayerValue at hbody
            rw [findPlayer_updatePlayerIn t.playerId t.playerId
              (fun p => { p with currentClub := some t.toClub })
              (fun p => rfl) dbB] at hbody
            rcases Option.isSome_iff_exists.1 hBplayersSome with ⟨pb, hpb⟩
            rw [hpb] at hbody
            dsimp only [Option.map_some'] at hbody
            unfold updateClubBudgets at hbody
            dsimp only at hbody
            injection hbody with hb1 hb2
            have hDbudgets : ∀ x,
                budgetOf x (updateClubIn t.toClub
                  (fun c =>
                    if c.currentSquad.any (fun i => i == t.playerId) then c
                    else { c with currentSquad := c.currentSquad ++ [t.playerId] })
                  (updateClubIn t.fromClub
                    (fun c => { c with currentSquad :=
                      c.currentSquad.filter (fun i => i != t.playerId) })
                    (updatePlayerIn t.playerId
                      (fun p => { p with marketValue :=
                        ((jsRound (t.transferFee * (9 / 10)) : ℤ) : ℚ) })
                      (updatePlayerIn t.playerId
                        (fun p => { p with currentClub := some t.toClub }) dbB))))
                = budgetOf x dbB := by
              intro x
              rw [budgetOf_updateClubIn_preserve x t.toClub _
                (by intro c; split <;> rfl) (by intro c; split <;> rfl)]
              rw [budgetOf_updateClubIn_preserve x t.fromClub
                (fun c => { c with currentSquad :=
                  c.currentSquad.filter (fun i => i != t.playerId) })
                (fun c => rfl) (fun c => rfl)]
              rfl
            constructor
            · intro x hx
              rw [← hb2]
              show budgetOf x (updateClubIn t.fromClub _ _) = budgetOf x db
              rw [budgetOf_updateClubIn_other x t.fromClub hx
                (fun c => { c with budget := c.budget +
                  (t.transferFee - sellOnDeduction t.transferFee t.sellOnClause) })
                (fun c => rfl)]
              rw [hDbudgets x, hBbudgets x]
            · rw [← hb2]
              show budgetOf t.fromClub (updateClubIn t.fromClub _ _)
                = (budgetOf t.fromClub db).map
                  (fun b => b + (t.transferFee - sellOnDeduction t.transferFee t.sellOnClause))
              rw [budgetOf_updateClubIn_self t.fromClub
                (fun c => { c with budget := c.budget +
                  (t.transferFee - sellOnDeduction t.transferFee t.sellOnClause) })
                (fun c => rfl)]
              have hcompose : ∀ dbX : DB,
                  (findClub t.fromClub dbX).map (fun c =>
                    ({ c with budget := c.budget +
                      (t.transferFee - sellOnDeduction t.transferFee t.sellOnClause) } : Club).budget)
                  = (budgetOf t.fromClub dbX).map (fun b => b +
                      (t.transferFee - sellOnDeduction t.transferFee t.sellOnClause)) := by
                intro dbX
                unfold budgetOf
                cases findClub t.fromClub dbX <;> rfl
              rw [hcompose]
              have hfb : budgetOf t.fromClub (updateClubIn t.toClub
                  (fun c =>
                    if c.currentSquad.any (fun i => i == t.playerId) then c
                    else { c with currentSquad := c.currentSquad ++ [t.playerId] })
                  (updateClubIn t.fromClub
                    (fun c => { c with currentSquad :=
                      c.currentSquad.filter (fun i => i != t.playerId) })
                    (updatePlayerIn t.playerId
                      (fun p => { p with marketValue :=
                        ((jsRound (t.transferFee * (9 / 10)) : ℤ) : ℚ) })
                      (updatePlayerIn t.playerId
                        (fun p => { p with currentClub := some t.toClub }) dbB))))
                  = budgetOf t.fromClub db := by
                rw [hDbudgets t.fromClub, hBbudgets t.fromClub]
              rw [hfb]
      case _ h1 h2 h3 h4 =>
        exact absurd (congrArg Prod.fst hbody) (by simp)
  case _ e db3 hbody0 =>
    exact absurd (congrArg Prod.fst h) (by simp)

/-! ## C3 -/

/-- C3: for every transfer taken through initiateTransfer and a successful
completeTransfer, the destination club budget ends at its pre-initiate value
minus the fee (reserved at initiate, not charged again at settlement), and
the origin club budget ends at its pre-initiate value plus
fee × (1 − percentage/100) when the sell-on clause is active (the full fee
when it is not). The reservation and settlement bodies are modelled from the
specification because their sources are missing. The freshness hypothesis
(id counter unused among transfers) holds for engine-produced states, and
the clause percentage is nonnegative as the schema enforces. -/
theorem initiate_complete_budget_effects (data : TransferData) (now : Int)
    (db : DB) (tid : Nat) (db1 : DB) (cd : Option ContractTerms) (r : Nat)
    (db2 : DB)
    (hinit : initiateTransfer data db = (Except.ok tid, db1))
    (hcomp : completeTransfer now tid cd db1 = (Except.ok r, db2))
    (hfresh : ∀ t ∈ db.transfers, t.id ≠ db.nextId)
    (hne : data.fromClub ≠ data.toClub)
    (bFrom bTo : ℚ)
    (hbFrom : budgetOf data.fromClub db = some bFrom)
    (hbTo : budgetOf data.toClub db = some bTo) :
    budgetOf data.toClub db2 = some (bTo - data.transferFee) ∧
    (data.sellOnClause.active = true → 0 ≤ data.sellOnClause.percentage →
      budgetOf data.fromClub db2
        = some (bFrom + data.transferFee * (1 - data.sellOnClause.percentage / 100))) ∧
    (data.sellOnClause.active = false →
      budgetOf data.fromClub db2 = some (bFrom + data.transferFee)) := by
  obtain ⟨htid, htr, hpl, hct, hbudTo, hbudOther⟩ :=
    initiateTransfer_ok_char data db tid db1 hinit
  have hfind : findTransfer tid db1
      = some (schemaNewTransfer db.nextId data (some TransferStatus.Pending)) := by
    unfold findTransfer
    rw [htr, htid]
    rw [List.find?_append]
    have hnone : db.transfers.find? (fun t => t.id == db.nextId) = none := by
      rw [List.find?_eq_none]
      intro t htmem
      simpa using hfresh t htmem
    rw [hnone]
    simp [schemaNewTransfer]
  obtain ⟨hother, hfrom⟩ := completeTransfer_ok_budgets now tid cd db1
    (schemaNewTransfer db.nextId data (some TransferStatus.Pending)) hfind r db2 hcomp
  have h1 : budgetOf data.toClub db2 = some (bTo - data.transferFee) := by
    rw [hother data.toClub (fun hh => hne hh.symm), hbudTo, hbTo]
    rfl
  have hfrom2 : budgetOf data.fromClub db2 = (budgetOf data.fromClub db1).map
      (fun b => b + (data.transferFee
        - sellOnDeduction data.transferFee data.sellOnClause)) := hfrom
  have hfromB : budgetOf data.fromClub db1 = some bFrom := by
    rw [hbudOther data.fromClub hne]
    exact hbFrom
  rw [hfromB] at hfrom2
  simp only [Option.map_some'] at hfrom2
  refine ⟨h1, ?_, ?_⟩
  · intro hact hpos
    rw [hfrom2]
    have harith : bFrom + (data.transferFee
        - sellOnDeduction data.transferFee data.sellOnClause)
        = bFrom + data.transferFee * (1 - data.sellOnClause.percentage / 100) := by
      unfold sellOnDeduction
      rw [hact]
      rcases eq_or_lt_of_le hpos with hp0 | hp0
      · rw [if_neg (by rw [← hp0]; simp)]
        rw [← hp0]
        norm_num
      · rw [if_pos (by simp [hp0])]
        ring
    rw [harith]
  · intro hinact
    rw [hfrom2]
    have harith : bFrom + (data.transferFee
        - sellOnDeduction data.transferFee data.sellOnClause)
        = bFrom + data.transferFee := by
      unfold sellOnDeduction
      rw [hinact]
      simp
    rw [harith]

/-- Witness for C3 at the concrete sell-on transfer: destination budget
15,000,000 − 7,000,000 = 8,000,000 and origin budget
10,000,000 + 7,000,000 × (1 − 10/100) = 16,300,000. -/
theorem initiate_complete_budget_effects_witness :
    budgetOf 3 dbSellOnCompleted = some ((15000000 : ℚ) - 7000000) ∧
    (sellOnTransferData.sellOnClause.active = true →
      0 ≤ sellOnTransferData.sellOnClause.percentage →
      budgetOf 2 dbSellOnCompleted
        = some ((10000000 : ℚ) + 7000000 * (1 - 10 / 100))) ∧
    (sellOnTransferData.sellOnClause.active = false →
      budgetOf 2 dbSellOnCompleted = some ((10000000 : ℚ) + 7000000)) :=
  initiate_complete_budget_effects sellOnTransferData 7 dbPreTransfer 10
    dbSellOnInitiated none 10 dbSellOnCompleted
    (by simp [initiateTransfer, initiateTransferIn, withTransaction, bindE,
      validateTransfer, validateTransferWindow, validateClubBudgets,
      validateContractStatus, validateSquadRegistration, findPlayer, findClub,
      findTransfer, schemaNewTransfer, reserveFunds, updateClubIn,
      calculateTransferBudgetImpact, sellOnDeduction, dbPreTransfer,
      dbSellOnInitiated, sellOnTransferData, samplePlayer, originClub, destClub,
      activeContract] <;> norm_num)
    (by simp [completeTransfer, completeTransferIn, withTransaction, bindE,
      findTransfer, findPlayer, findClub, findContract, terminateOldContract,
      terminateContractIn, updateContractIn, terminateChange, terminationReasonOf,
      mapSet, createNewContract, createContractIn, validateContract,
      calculateClubSalaryExpenses, attachPlayerAndSquad, updatePlayerIn,
      updateClubIn, updateTransferIn, updatePlayerValue, updateClubBudgets,
      sellOnDeduction, jsRound, initiateTransfer, initiateTransferIn,
      validateTransfer, validateTransferWindow, validateClubBudgets,
      validateContractStatus, validateSquadRegistration, schemaNewTransfer,
      reserveFunds, calculateTransferBudgetImpact, dbPreTransfer,
      dbSellOnInitiated, dbSellOnCompleted, sellOnTransferData, samplePlayer,
      originClub, destClub, activeContract] <;> norm_num)
    (by decide) (by decide) 10000000 15000000 rfl rfl

/-! ## Preservation of the same-club property by the engine -/

theorem sameClub_map (l : List Contract) (g : Contract → Contract)
    (hpid : ∀ c, (g c).playerId = c.playerId)
    (hclub : ∀ c, (g c).clubId = c.clubId)
    (hact : ∀ c, (g c).status = ContractStatus.Active →
      c.status = ContractStatus.Active)
    (hsc : SameClubContracts l) : SameClubContracts (l.map g) := by
  intro c1 h1 c2 h2 hpe ha1 ha2
  rcases List.mem_map.1 h1 with ⟨a1, ha1m, rfl⟩
  rcases List.mem_map.1 h2 with ⟨a2, ha2m, rfl⟩
  rw [hclub a1, hclub a2]
  exact hsc a1 ha1m a2 ha2m (by rw [← hpid a1, ← hpid a2]; exact hpe)
    (hact _ ha1) (hact _ ha2)

theorem sameClub_append (l : List Contract) (c : Contract)
    (hcond : ∀ x ∈ l, x.playerId = c.playerId →
      x.status = ContractStatus.Active → x.clubId = c.clubId)
    (hsc : SameClubContracts l) : SameClubContracts (l ++ [c]) := by
  intro c1 h1 c2 h2 hpe ha1 ha2
  rcases List.mem_append.1 h1 with h1l | h1c
  · rcases List.mem_append.1 h2 with h2l | h2c
    · exact hsc c1 h1l c2 h2l hpe ha1 ha2
    · have hc2 : c2 = c := by simpa using h2c
      subst hc2
      exact hcond c1 h1l hpe ha1
  · have hc1 : c1 = c := by simpa using h1c
    rcases List.mem_append.1 h2 with h2l | h2c
    · have hcc := hcond c2 h2l (by rw [← hc1]; exact hpe.symm) ha2
      rw [hc1, hcc]
    · have hc2 : c2 = c := by simpa using h2c
      rw [hc1, hc2]

theorem sameClub_terminate_map (now : Int) (td : TerminationData) (cid : Nat)
    (l : List Contract) (hsc : SameClubContracts l) :
    SameClubContracts (l.map
      (fun c => if c.id == cid then terminateChange now td c else c)) := by
  apply sameClub_map _ _ ?_ ?_ ?_ hsc
  · intro c
    dsimp only
    split <;> rfl
  · intro c
    dsimp only
    split <;> rfl
  · intro c
    dsimp only
    split
    · intro hA
      exact absurd hA (by simp [terminateChange])
    · exact fun hA => hA

theorem sameClubContracts_terminateContractIn (now : Int) (cid : Nat)
    (td : TerminationData) (db : DB) (r : Except ErrorResponse Nat) (db1 : DB)
    (h : terminateContractIn now cid td db = (r, db1))
    (hsc : SameClubContracts db.contracts) : SameClubContracts db1.contracts := by
  unfold terminateContractIn at h
  split at h
  · injection h with h1 h2
    rw [← h2]
    exact hsc
  · split at h
    · injection h with h1 h2
      rw [← h2]
      exact hsc
    · injection h with h1 h2
      rw [← h2]
      exact sameClub_terminate_map now td cid db.contracts hsc

theorem sameClubContracts_createContractIn (d : ContractData) (db : DB)
    (r : Except ErrorResponse Contract) (db1 : DB)
    (h : createContractIn d db = (r, db1))
    (hsc : SameClubContracts db.contracts) : SameClubContracts db1.contracts := by
  cases r with
  | error e =>
    unfold createContractIn bindE at h
    split at h
    · rename_i e2 db0 hval
      injection h with h1 h2
      have hdb0 : db0 = db := by
        have h3 := congrArg Prod.snd hval
        rw [validateContract_snd] at h3
        exact h3.symm
      rw [← h2, hdb0]
      exact hsc
    · rename_i fields db0 hval
      obtain ⟨pid, cid, s, e2, sal⟩ := fields
      dsimp only at h
      exact absurd (congrArg Prod.fst h) (by simp)
  | ok c =>
    obtain ⟨_, _, _, _, _, _, _, _, hnone, hcontr, _, _, _, _⟩ :=
      createContractIn_ok d db c db1 h
    rw [hcontr]
    apply sameClub_append _ _ ?_ hsc
    intro x hx hxp hxa
    have hnot := List.find?_eq_none.1 hnone x hx
    by_contra hxc
    apply hnot
    simp [hxp, hxa, hxc]

theorem updatePlayerIn_contracts (pid : Nat) (f : Player → Player) (db : DB) :
    (updatePlayerIn pid f db).contracts = db.contracts := rfl

theorem updateClubIn_contracts (cid : Nat) (f : Club → Club) (db : DB) :
    (updateClubIn cid f db).contracts = db.contracts := rfl

theorem updateTransferIn_contracts (tid : Nat) (f : Transfer → Transfer)
    (db : DB) : (updateTransferIn tid f db).contracts = db.contracts := rfl

theorem updatePlayerValue_contracts (pid : Nat) (fee : ℚ) (db : DB) :
    ((updatePlayerValue pid fee db).2).contracts = db.contracts := by
  unfold updatePlayerValue
  split
  · rfl
  · rw [updatePlayerIn_contracts]

theorem updateClubBudgets_contracts (a b : Nat) (fee : ℚ) (s : SellOnClause)
    (db : DB) : ((updateClubBudgets a b fee s db).2).contracts = db.contracts := rfl

theorem sameClubContracts_renewContractIn (now : Int) (cid : Nat)
    (rd : ContractTerms) (db : DB) (r : Except ErrorResponse Contract) (db1 : DB)
    (h : renewContractIn now cid rd db = (r, db1))
    (hsc : SameClubContracts db.contracts) : SameClubContracts db1.contracts := by
  unfold renewContractIn at h
  split at h
  · injection h with h1 h2
    rw [← h2]
    exact hsc
  · split at h
    · injection h with h1 h2
      rw [← h2]
      exact hsc
    · unfold bindE at h
      split at h
      · rename_i e dbA hterm
        injection h with h1 h2
        rw [← h2]
        exact sameClubContracts_terminateContractIn _ _ _ _ _ _ hterm hsc
      · rename_i r1 dbA hterm
        have hA : SameClubContracts dbA.contracts :=
          sameClubContracts_terminateContractIn _ _ _ _ _ _ hterm hsc
        dsimp only at h
        split at h
        · rename_i e dbB hcr
          injection h with h1 h2
          rw [← h2]
          exact sameClubContracts_createContractIn _ _ _ _ hcr hA
        · rename_i nc dbB hcr
          have hB : SameClubContracts dbB.contracts :=
            sameClubContracts_createContractIn _ _ _ _ hcr hA
          try dsimp only at h
          split at h
          · rename_i e dbC hup
            injection h with h1 h2
            rw [← h2]
            have hC := congrArg Prod.snd hup
            dsimp only at hC
            rw [← hC, updatePlayerValueOnRenewal_contracts]
            exact hB
          · rename_i r3 dbC hup
            injection h with h1 h2
            rw [← h2]
            have hC := congrArg Prod.snd hup
            dsimp only at hC
            rw [← hC, updatePlayerValueOnRenewal_contracts]
            exact hB

theorem sameClubContracts_completeTransferIn (now : Int) (tid : Nat)
    (cd : Option ContractTerms) (db : DB) (r : Except ErrorResponse Nat)
    (db1 : DB) (h : completeTransferIn now tid cd db = (r, db1))
    (hsc : SameClubContracts db.contracts) : SameClubContracts db1.contracts := by
  unfold completeTransferIn terminateOldContract createNewContract at h
  split at h
  · injection h with h1 h2
    rw [← h2]
    exact hsc
  · split at h
    · injection h with h1 h2
      rw [← h2]
      exact hsc
    · split at h
      · unfold bindE at h
        split at h
        · rename_i e dbA hterm0
          injection h with h1 h2
          rw [← h2]
          split at hterm0
          · exact sameClubContracts_terminateContractIn _ _ _ _ _ _ hterm0 hsc
          · injection hterm0 with ht1 ht2
            rw [← ht2]
            exact hsc
        · rename_i r1 dbA hterm0
          have hA : SameClubContracts dbA.contracts := by
            split at hterm0
            · exact sameClubContracts_terminateContractIn _ _ _ _ _ _ hterm0 hsc
            · injection hterm0 with ht1 ht2
              rw [← ht2]
              exact hsc
          dsimp only at h
          split at h
          · rename_i e dbB hcr0
            injection h with h1 h2
            rw [← h2]
            split at hcr0
            · split at hcr0
              · rename_i e2 dbB0 hcr
                injection hcr0 with hc1 hc2
                rw [← hc2]
                exact sameClubContracts_createContractIn _ _ _ _ hcr hA
              · exact absurd (congrArg Prod.fst hcr0) (by simp)
            · exact absurd (congrArg Prod.fst hcr0) (by simp)
          · rename_i nco dbB hcr0
            have hB : SameClubContracts dbB.contracts := by
              split at hcr0
              · split at hcr0
                · exact absurd (congrArg Prod.fst hcr0) (by simp)
                · rename_i nc dbB0 hcr
                  injection hcr0 with hc1 hc2
                  rw [← hc2]
                  exact sameClubContracts_createContractIn _ _ _ _ hcr hA
              · injection hcr0 with hc1 hc2
                rw [← hc2]
                exact hA
            try dsimp only at h
            split at h
            · rename_i e dbC hup
              injection h with h1 h2
              rw [← h2]
              have hC := congrArg Prod.snd hup
              dsimp only at hC
              rw [← hC, updatePlayerValue_contracts, updatePlayerIn_contracts]
              exact hB
            · rename_i a dbC hup
              have hCc : dbC.contracts = dbB.contracts := by
                have hC := congrArg Prod.snd hup
                dsimp only at hC
                rw [← hC, updatePlayerValue_contracts, updatePlayerIn_contracts]
              try dsimp only at h
              split at h
              · rename_i e dbD hbud
                unfold updateClubBudgets at hbud
                exact absurd (congrArg Prod.fst hbud) (by simp)
              · rename_i a2 dbD hbud
                try dsimp only at h
                injection h with h1 h2
                rw [← h2, updateTransferIn_contracts]
                have hD := congrArg Prod.snd hbud
                dsimp only at hD
                rw [← hD, updateClubBudgets_contracts]
                simp only [updateClubIn_contracts]
                rw [hCc]
                exact hB
      · injection h with hh1 hh2
        rw [← hh2]
        exact hsc

theorem sameClub_engineStep (db db1 : DB) (h : EngineStep db db1)
    (hsc : SameClub db) : SameClub db1 := by
  cases h with
  | create data db =>
    unfold SameClub createContract withTransaction
    split
    · rename_i a db2 heq
      exact sameClubContracts_createContractIn _ _ _ _ heq hsc
    · exact hsc
  | terminate now cid td db =>
    unfold SameClub terminateContract withTransaction
    split
    · rename_i a db2 heq
      exact sameClubContracts_terminateContractIn _ _ _ _ _ _ heq hsc
    · exact hsc
  | renew now cid rd db =>
    unfold SameClub renewContract withTransaction
    split
    · rename_i a db2 heq
      exact sameClubContracts_renewContractIn _ _ _ _ _ _ heq hsc
    · exact hsc
  | complete now tid cd db =>
    unfold SameClub completeTransfer withTransaction
    split
    · rename_i a db2 heq
      exact sameClubContracts_completeTransferIn _ _ _ _ _ _ heq hsc
    · exact hsc
  | sweep today db =>
    unfold SameClub processExpiredContracts
    dsimp only
    apply sameClub_map _ _ ?_ ?_ ?_ hsc
    · intro c
      unfold expireOne
      split <;> rfl
    · intro c
      unfold expireOne
      split <;> rfl
    · intro c
      unfold expireOne
      split
      · intro hA
        exact absurd hA (by simp)
      · exact fun hA => hA

/-! ## C1 -/

/-- C1 counterexample: granting the same contract request twice from a state
with no contracts is a committed two-step engine run that ends with two
Active contracts of player 1 (both with club 2): validateContract only
rejects an Active contract of the player with another club, so the at most
one Active contract per player property claimed as the engine invariant is
not preserved by the engine operations. -/
theorem two_active_contracts_reachable :
    EngineReach dbNoContracts dbTwoActive ∧
    (dbTwoActive.contracts.filter
        (fun c => c.playerId == 1 && c.status == ContractStatus.Active)).length = 2 ∧
    ¬ AtMostOneActive dbTwoActive := by
  have hreach : EngineReach dbNoContracts dbTwoActive :=
    EngineReach.tail
      (EngineReach.tail (EngineReach.refl dbNoContracts)
        (EngineStep.create plainContractData dbNoContracts))
      (EngineStep.create plainContractData dbOneActive)
  have hlen : (dbTwoActive.contracts.filter
      (fun c => c.playerId == 1 && c.status == ContractStatus.Active)).length = 2 := by
    simp [dbTwoActive, dbOneActive, dbNoContracts, plainContractData, samplePlayer,
      createContract, createContractIn, withTransaction, bindE, validateContract,
      findPlayer, findClub, calculateClubSalaryExpenses, attachPlayerAndSquad,
      updatePlayerIn, updateClubIn, minContractDurationMs, maxContractDurationMs]
      <;> norm_num
  refine ⟨hreach, hlen, ?_⟩
  intro hmono
  have h1 := hmono 1
  rw [hlen] at h1
  omega

/-- C1: every state reachable from a state satisfying the same-club property
by committed engine operations (createContract, terminateContract,
renewContract, completeTransfer and the expiry sweep, failed calls rolled
back by their transactions included) again satisfies it: all Active
contracts of one player name the same club. This is the per-player contract
invariant the validator actually enforces; the stronger claimed invariant,
at most one Active contract per player, is refuted by the counterexample
above. -/
theorem engine_preserves_sameClub (db db2 : DB) (h : EngineReach db db2)
    (hsc : SameClub db) : SameClub db2 := by
  induction h with
  | refl => exact hsc
  | tail hr hs ih => exact sameClub_engineStep _ _ hs ih

/-- C1 witness: the two-step engine run granting the same contract request
twice from the contract-free state, whose start state satisfies the
same-club property, so its end state does as well. -/
theorem engine_preserves_sameClub_witness :
    EngineReach dbNoContracts dbTwoActive ∧ SameClub dbNoContracts ∧
      SameClub dbTwoActive := by
  have h0 : SameClub dbNoContracts := by
    unfold SameClub SameClubContracts dbNoContracts
    intro c1 h1 c2 h2 hp ha1 ha2
    simp at h1
  have hreach : EngineReach dbNoContracts dbTwoActive :=
    EngineReach.tail
      (EngineReach.tail (EngineReach.refl dbNoContracts)
        (EngineStep.create plainContractData dbNoContracts))
      (EngineStep.create plainContractData dbOneActive)
  exact ⟨hreach, h0, engine_preserves_sameClub _ _ hreach h0⟩

end Transfermarkt
